import Mathlib

/-!
# Verification of `geometry_creation.py`

A shallow embedding of the geometry-buffer core of
`src/geometry/geometry_creation.py`: the format registry (`SIZES`,
`FORMAT_MAP`), the attribute-layout planner (`set_up_attributes`), the
interleaved buffer encoder (`build_geometry_buffer`, `build_geometry_patch`),
the buffer decoder used by `export_mesh`, and the instance builder
(`create_instances`).

Modelling conventions:

* Bytes are `Nat` values below 256, byte buffers are `List Nat`.
* numpy scalar values are `Int`.  The signed integer dtypes (`np.int8`,
  `np.int16`, `np.int32`) serialize a value little-endian modulo `2^(8*size)`
  and deserialize with two's-complement sign interpretation, exactly as numpy
  does on a little-endian machine.  `np.single` (float32) values are modelled
  by their 32-bit IEEE-754 patterns (a `Nat` below `2^32` carried in an
  `Int`); serializing writes the pattern's four bytes little-endian and
  deserializing reassembles it, which mirrors `tobytes`/`frombuffer` acting on
  the bit patterns.
* Python functions that can raise are modelled with `Option`: `none` is the
  raised exception (`IndexError`, numpy `ValueError`, ...).
* A list-valued argument that Python would treat as absent/falsy (`None` or
  `[]`) is modelled as the empty list, matching `if input.normals:` checks.
-/

namespace GeometryCreation

/-- The numpy element types appearing as values of `FORMAT_MAP`. -/
inductive Dtype where
  | i8  : Dtype
  | i16 : Dtype
  | i32 : Dtype
  | f32 : Dtype
deriving DecidableEq, Repr

/-- numpy itemsize of each element type, in bytes. -/
def Dtype.itemsize : Dtype → Nat
  | .i8 => 1
  | .i16 => 2
  | .i32 => 4
  | .f32 => 4

/-- The `SIZES` table: byte size of one value of each format tag.  An unknown
tag raises `KeyError` in the source; it is never reached by the claims, so the
model returns 0 there. -/
def SIZES (format : String) : Nat :=
  if format = "U8" then 1
  else if format = "U16" then 2
  else if format = "U32" then 4
  else if format = "U8VEC4" then 4
  else if format = "U16VEC2" then 4
  else if format = "VEC2" then 8
  else if format = "VEC3" then 12
  else if format = "VEC4" then 16
  else if format = "MAT3" then 36
  else if format = "MAT4" then 64
  else 0

/-- The `FORMAT_MAP` table: numpy element type of each format tag.  Note that
the integer formats are mapped to the *signed* numpy types (`np.int8`,
`np.int16`, `np.int32`), which is what claim C10 is about.  An unknown tag
raises `KeyError` in the source; the model's default branch is unreachable for
the claims. -/
def FORMAT_MAP (format : String) : Dtype :=
  if format = "U8" then .i8
  else if format = "U16" then .i16
  else if format = "U32" then .i32
  else if format = "U8VEC4" then .i8
  else if format = "U16VEC2" then .i16
  else .f32

def DEFAULT_POSITION : List Int := [0, 0, 0, 0]
def DEFAULT_COLOR : List Int := [1, 1, 1, 1]
def DEFAULT_ROTATION : List Int := [0, 0, 0, 0]
def DEFAULT_SCALE : List Int := [1, 1, 1, 0]

/-- `get_format`: index numeric format that can accommodate `num_vertices`. -/
def get_format (num_vertices : Nat) : String :=
  if num_vertices < 256 then "U8"
  else if num_vertices < 65536 then "U16"
  else "U32"

/-- `AttributeInput`: semantic, format, normalized flag, and the offset/stride
filled in by `set_up_attributes`. -/
structure AttributeInput where
  semantic : String
  format : String
  normalized : Bool
  offset : Nat := 0
  stride : Nat := 0
deriving DecidableEq, Repr

/-- `GeometryPatchInput`: the per-vertex streams and the index groups.  Each
per-vertex value and each index group is a tuple, modelled as `List Int`.
The `index_type`/`material` fields play no role in the buffer layout and are
omitted. -/
structure GeometryPatchInput where
  vertices : List (List Int)
  normals : List (List Int) := []
  tangents : List (List Int) := []
  textures : List (List Int) := []
  colors : List (List Int) := []
  indices : List (List Int)
deriving DecidableEq, Repr

/-- The offset-assignment loop of `set_up_attributes`: walk the descriptors,
give each the running offset, and advance by its format size. -/
def assignOffsets (offset : Nat) : List AttributeInput → List AttributeInput
  | [] => []
  | a :: rest => { a with offset := offset } :: assignOffsets (offset + SIZES a.format) rest

/-- `set_up_attributes`: build the descriptor list in fixed semantic order
POSITION, NORMAL, TANGENT, TEXTURE, COLOR (present ones only, position
always), then assign offsets and the shared stride. -/
def set_up_attributes (input : GeometryPatchInput) : List AttributeInput :=
  let attribute_info : List AttributeInput :=
    [{ semantic := "POSITION", format := "VEC3", normalized := false }]
    ++ (if input.normals = [] then []
        else [{ semantic := "NORMAL", format := "VEC3", normalized := false }])
    ++ (if input.tangents = [] then []
        else [{ semantic := "TANGENT", format := "VEC3", normalized := false }])
    ++ (if input.textures = [] then []
        else [{ semantic := "TEXTURE", format := "U16VEC2", normalized := true }])
    ++ (if input.colors = [] then []
        else [{ semantic := "COLOR", format := "U8VEC4", normalized := true }])
  let stride := (attribute_info.map (fun a => SIZES a.format)).sum
  (assignOffsets 0 attribute_info).map (fun a => { a with stride := stride })

/-- `padded`: right-pad a tuple with `0.0` up to 4 components. -/
def padded (lst : List Int) : List Int :=
  if lst.length < 4 then lst ++ List.replicate (4 - lst.length) 0 else lst

/-- `create_instances`: build the flat list of 4-component groups, four groups
(position, color, rotation, scale) per instance. -/
def create_instances (positions colors rotations scales : List (List Int)) :
    List (List Int) :=
  let positions :=
    if positions = [] ∧ colors = [] ∧ rotations = [] ∧ scales = [] then
      [DEFAULT_POSITION]
    else positions
  let num_instances :=
    max (max positions.length colors.length) (max rotations.length scales.length)
  (List.range num_instances).flatMap (fun i =>
    [ if i < positions.length then padded (positions.getD i []) else DEFAULT_POSITION,
      if i < colors.length then padded (colors.getD i []) else DEFAULT_COLOR,
      if i < rotations.length then padded (rotations.getD i []) else DEFAULT_ROTATION,
      if i < scales.length then padded (scales.getD i []) else DEFAULT_SCALE ])

/-! ## Byte-level serialization (numpy `tobytes` / `frombuffer`) -/

/-- Little-endian byte expansion: `w` bytes of `m` (low byte first). -/
def toLE : Nat → Nat → List Nat
  | 0, _ => []
  | w + 1, m => (m % 256) :: toLE w (m / 256)

/-- Little-endian byte reassembly. -/
def fromLE : List Nat → Nat
  | [] => 0
  | b :: bs => b + 256 * fromLE bs

/-- Serialize one scalar of element type `d`, as `np.array([v], dtype=d)
.tobytes()` does on a little-endian machine: the value reduced modulo
`2^(8*itemsize)` written little-endian.  For `f32` the `Int` is the IEEE-754
bit pattern (see the module docstring). -/
def encodeElem (d : Dtype) (v : Int) : List Nat :=
  toLE d.itemsize (v % (2 ^ (8 * d.itemsize) : Int)).toNat

/-- Deserialize one scalar of element type `d` from its `itemsize` bytes, as
`np.frombuffer` does: two's-complement for the signed integer types, the raw
bit pattern for `f32`. -/
def decodeElem (d : Dtype) (bs : List Nat) : Int :=
  let m := fromLE bs
  match d with
  | .f32 => (m : Int)
  | _ => if m < 2 ^ (8 * d.itemsize - 1) then (m : Int)
         else (m : Int) - 2 ^ (8 * d.itemsize)

/-- Split a byte string into consecutive elements of type `d`.  Every
element type has positive itemsize, so each step consumes at least one byte
and `bs.length` steps always suffice; the fuel only makes the recursion
structural (hence kernel-computable). -/
def decodeChunksAux (d : Dtype) : Nat → List Nat → List Int
  | 0, _ => []
  | _, [] => []
  | fuel + 1, b :: bs =>
    decodeElem d ((b :: bs).take d.itemsize)
      :: decodeChunksAux d fuel ((b :: bs).drop d.itemsize)

/-- Split a byte string into consecutive elements of type `d`
(`np.frombuffer` without a count, after its divisibility check). -/
def decodeChunks (d : Dtype) (bs : List Nat) : List Int :=
  decodeChunksAux d bs.length bs

/-- `np.frombuffer(bs, dtype=d)` with no count: requires the buffer length to
be a multiple of the itemsize (else numpy raises `ValueError`). -/
def frombuffer (d : Dtype) (bs : List Nat) : Option (List Int) :=
  if bs.length % d.itemsize = 0 then some (decodeChunks d bs) else none

/-- `np.frombuffer(bs, dtype=d, count, offset)`: reads exactly `count`
elements starting at byte `offset`; numpy raises `ValueError` when the buffer
is smaller than requested. -/
def frombufferCount (d : Dtype) (bs : List Nat) (count offset : Nat) :
    Option (List Int) :=
  if offset + count * d.itemsize ≤ bs.length then
    some (decodeChunks d ((bs.drop offset).take (count * d.itemsize)))
  else none

/-! ## Interleaved buffer encoder (`build_geometry_buffer`,
`build_geometry_patch`) -/

/-- `np.array(info, dtype=d).tobytes(order='C')` for a 1-d tuple `info`. -/
def encodeTuple (d : Dtype) (info : List Int) : List Nat :=
  (info.map (encodeElem d)).flatten

/-- The streams that take part in the interleaving: the Python source filters
the five candidate lists by truthiness (`[x for x in [...] if x]`), so empty
streams are dropped — including, notably, an empty vertex list. -/
def presentData (input : GeometryPatchInput) : List (List (List Int)) :=
  [input.vertices, input.normals, input.tangents, input.textures,
    input.colors].filter (fun l => l ≠ [])

/-- Python's `zip(*data)`: pointwise tuples up to the shortest stream.
`zip(*[])` yields nothing. -/
def zipStar (data : List (List (List Int))) : List (List (List Int)) :=
  match data with
  | [] => []
  | l :: ls =>
    let n := ls.foldl (fun m s => min m s.length) l.length
    (List.range n).map (fun i => (l :: ls).map (fun s => s.getD i []))

/-- One interleaved vertex record: each present attribute tuple serialized
with its descriptor's element type, in layout order (`zip(point,
attribute_info)` truncates to the shorter of the two, like Python's zip). -/
def encodePoint (attribute_info : List AttributeInput) (point : List (List Int)) :
    List Nat :=
  ((point.zip attribute_info).map
    (fun p => encodeTuple (FORMAT_MAP p.2.format) p.1)).flatten

/-- The interleaved vertex section of `build_geometry_buffer`. -/
def vertexSection (input : GeometryPatchInput)
    (attribute_info : List AttributeInput) : List Nat :=
  ((zipStar (presentData input)).map (encodePoint attribute_info)).flatten

/-- The index section: `np.array(input.indices, dtype).tobytes(order='C')`
flattens the groups row-major and serializes each index scalar. -/
def indexSection (input : GeometryPatchInput) (index_format : String) : List Nat :=
  (input.indices.flatten.map (encodeElem (FORMAT_MAP index_format))).flatten

/-- `build_geometry_buffer`: the returned buffer bytes and the recorded index
offset.  The source's `size > 1000` fork performs identical work in both
branches (creating the same inline-bytes Buffer component), so the model is
the single shared path; the server-side component creation itself is an
external collaborator and only the produced bytes and offset are modelled. -/
def build_geometry_buffer (input : GeometryPatchInput) (index_format : String)
    (attribute_info : List AttributeInput) : List Nat × Nat :=
  let buffer_bytes := vertexSection input attribute_info
  let index_offset := buffer_bytes.length
  (buffer_bytes ++ indexSection input index_format, index_offset)

/-- The fields of the `rigatoni.Index` descriptor that the buffer layout
determines. -/
structure IndexInfo where
  format : String
  count : Nat
  offset : Nat
deriving DecidableEq, Repr

/-- The parts of a `rigatoni.GeometryPatch` relevant to the claims: the
attribute descriptors, the vertex count, the index descriptor, and the inline
bytes of the buffer the patch points at. -/
structure GeometryPatch where
  attributes : List AttributeInput
  vertex_count : Nat
  indices : IndexInfo
  buffer : List Nat
deriving DecidableEq, Repr

/-- `build_geometry_patch`: computes the counts and the index format, plans
the layout, builds the buffer, and records the index descriptor.  The source
evaluates `input.indices[0]`, so an empty index list raises `IndexError`
(modelled as `none`). -/
def build_geometry_patch (input : GeometryPatchInput) : Option GeometryPatch :=
  match input.indices with
  | [] => none
  | g0 :: _ =>
    let vert_count := input.vertices.length
    let index_count := input.indices.length * g0.length
    let index_format := get_format vert_count
    let attribute_info := set_up_attributes input
    let r := build_geometry_buffer input index_format attribute_info
    some { attributes := attribute_info
           vertex_count := vert_count
           indices := { format := index_format, count := index_count, offset := r.2 }
           buffer := r.1 }

/-! ## Buffer decoder (`export_mesh`) -/

/-- `zip(*(iter(raw_indices),) * 3)`: regroup into triples, dropping a
trailing remainder of fewer than three scalars. -/
def groups3 : List Int → List (List Int)
  | a :: b :: c :: rest => [a, b, c] :: groups3 rest
  | _ => []

/-- `point_data.setdefault(attr_name, []).append(attr_data)` on an
insertion-ordered dict, modelled as an association list. -/
def setdefaultAppend (pdata : List (String × List (List Int))) (key : String)
    (val : List Int) : List (String × List (List Int)) :=
  if key ∈ pdata.map Prod.fst then
    pdata.map (fun p => if p.1 = key then (p.1, p.2 ++ [val]) else p)
  else pdata ++ [(key, [val])]

/-- The body of the decoder's `for attribute in patch.attributes` loop: read
`SIZES[format]` bytes at the running cursor `i`, deserialize them
(`np.frombuffer`, which raises on a chunk length not divisible by the
itemsize), advance the cursor, and route POSITION tuples to `points` and the
rest into `point_data`. -/
def stepAttributes (attrs : List AttributeInput) (ab : List Nat) (i : Nat)
    (points : List (List Int)) (pdata : List (String × List (List Int))) :
    Option (Nat × List (List Int) × List (String × List (List Int))) :=
  match attrs with
  | [] => some (i, points, pdata)
  | attr :: rest =>
    let chunk := (ab.drop i).take (SIZES attr.format)
    match frombuffer (FORMAT_MAP attr.format) chunk with
    | none => none
    | some attr_data =>
      if attr.semantic = "POSITION" then
        stepAttributes rest ab (i + SIZES attr.format) (points ++ [attr_data]) pdata
      else
        stepAttributes rest ab (i + SIZES attr.format) points
          (setdefaultAppend pdata attr.semantic attr_data)

/-- The decoder's `while i < len(attribute_bytes)` loop.  The source advances
`i` by the summed attribute sizes on every pass, so for any layout of
positive total size `len(attribute_bytes) + 1` passes suffice; `fuel = 0`
marks the nontermination a zero-size layout would cause in the source. -/
def decodeLoop (fuel : Nat) (attrs : List AttributeInput) (ab : List Nat)
    (i : Nat) (points : List (List Int))
    (pdata : List (String × List (List Int))) :
    Option (List (List Int) × List (String × List (List Int))) :=
  match fuel with
  | 0 => none
  | fuel + 1 =>
    if i < ab.length then
      match stepAttributes attrs ab i points pdata with
      | none => none
      | some (i', points', pdata') => decodeLoop fuel attrs ab i' points' pdata'
    else some (points, pdata)

/-- The decode core of `export_mesh` for one patch: slice and regroup the
index section, then walk the vertex section in stride-sized records routing
POSITION to the point list and every other semantic into `point_data`.
Returns `(points, index groups, point_data)`; `none` is a numpy
`ValueError`. -/
def export_mesh_decode (bytes : List Nat) (index : IndexInfo)
    (attributes : List AttributeInput) :
    Option (List (List Int) × List (List Int) × List (String × List (List Int))) :=
  match frombufferCount (FORMAT_MAP index.format) bytes index.count index.offset with
  | none => none
  | some raw_indices =>
    let grouped := groups3 raw_indices
    let attribute_bytes := bytes.take index.offset
    match decodeLoop (attribute_bytes.length + 1) attributes attribute_bytes 0 [] [] with
    | none => none
    | some (points, pdata) => some (points, grouped, pdata)

/-! ## Auxiliary notions used by the statements -/

/-- The values a scalar of element type `d` carries through serialization
unchanged: for `f32`, any 32-bit pattern; for the signed integer types, the
signed range of the width. -/
def inRange (d : Dtype) (v : Int) : Prop :=
  match d with
  | .f32 => 0 ≤ v ∧ v < 2 ^ 32
  | d => -(2 ^ (8 * d.itemsize - 1)) ≤ v ∧ v < 2 ^ (8 * d.itemsize - 1)

instance (d : Dtype) (v : Int) : Decidable (inRange d v) := by
  unfold inRange; cases d <;> exact inferInstance

/-- A tuple that fills its descriptor's slot exactly: its serialized bytes
have length `SIZES format`, and every component survives the round trip. -/
def goodTuple (attr : AttributeInput) (t : List Int) : Prop :=
  t.length * (FORMAT_MAP attr.format).itemsize = SIZES attr.format ∧
  ∀ v ∈ t, inRange (FORMAT_MAP attr.format) v

instance (attr : AttributeInput) (t : List Int) : Decidable (goodTuple attr t) := by
  unfold goodTuple; exact inferInstance

/-- Total byte size of one interleaved record of a layout. -/
def sumSizes (attrs : List AttributeInput) : Nat :=
  (attrs.map (fun a => SIZES a.format)).sum

/-- The routing the decoder performs per (tuple, descriptor) pair: POSITION
tuples go to the point list, all others into `point_data`. -/
def routeStep (acc : List (List Int) × List (String × List (List Int)))
    (p : List Int × AttributeInput) :
    List (List Int) × List (String × List (List Int)) :=
  if p.2.semantic = "POSITION" then (acc.1 ++ [p.1], acc.2)
  else (acc.1, setdefaultAppend acc.2 p.2.semantic p.1)

/-- The `point_data` mapping the decoder should reconstruct: each present
non-POSITION stream under its semantic, in layout order. -/
def expectedPointData (input : GeometryPatchInput) :
    List (String × List (List Int)) :=
  (if input.normals = [] then [] else [("NORMAL", input.normals)])
  ++ (if input.tangents = [] then [] else [("TANGENT", input.tangents)])
  ++ (if input.textures = [] then [] else [("TEXTURE", input.textures)])
  ++ (if input.colors = [] then [] else [("COLOR", input.colors)])

/-! ## Concrete inputs used by the scenarios, counterexamples and witnesses -/

/-- `1.0` as an IEEE-754 single-precision bit pattern. -/
def oneF32 : Int := 1065353216

/-- Spec scenario: 3 vertices with only positions
`[(0,0,0), (1,0,0), (0,1,0)]` and indices `[[0,1,2]]`. -/
def triangleInput : GeometryPatchInput :=
  { vertices := [[0, 0, 0], [oneF32, 0, 0], [0, oneF32, 0]]
    indices := [[0, 1, 2]] }

def emptyPatch : GeometryPatch :=
  { attributes := [], vertex_count := 0
    indices := { format := "U8", count := 0, offset := 0 }, buffer := [] }

def trianglePatch : GeometryPatch :=
  (build_geometry_patch triangleInput).getD emptyPatch

/-- Mismatched streams: two vertices but a single normal. -/
def mismatchedInput : GeometryPatchInput :=
  { vertices := [[0, 0, 0], [oneF32, 0, 0]]
    normals := [[5, 5, 5]]
    indices := [[0, 1, 2]] }

/-- One vertex, no index groups at all. -/
def emptyIndicesInput : GeometryPatchInput :=
  { vertices := [[0, 0, 0]], indices := [] }

/-- No vertices, one triangle's worth of indices. -/
def emptyVerticesInput : GeometryPatchInput :=
  { vertices := [], indices := [[0, 1, 2]] }

/-- A line segment: index groups of size 2 rather than 3. -/
def segmentInput : GeometryPatchInput :=
  { vertices := [[0, 0, 0], [oneF32, 0, 0]], indices := [[0, 1]] }

def segmentPatch : GeometryPatch :=
  (build_geometry_patch segmentInput).getD emptyPatch

/-- A patch input with every optional stream present, two triangles. -/
def fullInput : GeometryPatchInput :=
  { vertices := [[1, 2, 3], [4, 5, 6], [7, 8, 9]]
    normals := [[10, 11, 12], [13, 14, 15], [16, 17, 18]]
    tangents := [[19, 20, 21], [22, 23, 24], [25, 26, 27]]
    textures := [[100, 200], [300, 400], [500, 600]]
    colors := [[1, 2, 3, 4], [5, 6, 7, 8], [9, 10, 11, 12]]
    indices := [[0, 1, 2], [2, 1, 0]] }

def fullPatch : GeometryPatch :=
  (build_geometry_patch fullInput).getD emptyPatch

/-- 16 zero bytes: a vertex section whose length no 12-byte stride divides. -/
def corruptBytes : List Nat := List.replicate 16 0

/-- The layout of a positions-only patch. -/
def positionOnlyLayout : List AttributeInput :=
  [{ semantic := "POSITION", format := "VEC3", normalized := false
     offset := 0, stride := 12 }]

/-! ## C5: index-format selection -/

/-- C5: `get_format` returns "U8" iff the vertex count is below 256, "U16"
iff it lies in [256, 65536), and "U32" otherwise; in particular vertex counts
0, 255, 256, 65535 and 65536 select U8, U8, U16, U16 and U32. -/
theorem get_format_selects (n : Nat) :
    (get_format n = "U8" ↔ n < 256) ∧
    (get_format n = "U16" ↔ 256 ≤ n ∧ n < 65536) ∧
    (get_format n = "U32" ↔ 65536 ≤ n) ∧
    get_format 0 = "U8" ∧ get_format 255 = "U8" ∧ get_format 256 = "U16" ∧
    get_format 65535 = "U16" ∧ get_format 65536 = "U32" := by
  refine ⟨?_, ?_, ?_, by decide, by decide, by decide, by decide, by decide⟩ <;>
    · unfold get_format
      split_ifs with h1 h2 <;> simp <;> omega

/-! ## C8: planner order and per-semantic formats -/

/-- C8: the planner returns descriptors in the fixed semantic order POSITION,
NORMAL, TANGENT, TEXTURE, COLOR, with only the present streams included
(POSITION always present and first), and with format and normalization fixed
by semantic: the three vector semantics get the non-normalized 3-float
format, TEXTURE the normalized packed 2x16-bit format, COLOR the normalized
packed 4x8-bit format. -/
theorem set_up_attributes_order (input : GeometryPatchInput) :
    (set_up_attributes input).map (fun a => (a.semantic, a.format, a.normalized)) =
      [("POSITION", "VEC3", false)]
      ++ (if input.normals = [] then [] else [("NORMAL", "VEC3", false)])
      ++ (if input.tangents = [] then [] else [("TANGENT", "VEC3", false)])
      ++ (if input.textures = [] then [] else [("TEXTURE", "U16VEC2", true)])
      ++ (if input.colors = [] then [] else [("COLOR", "U8VEC4", true)]) := by
  unfold set_up_attributes
  by_cases hn : input.normals = [] <;> by_cases ht : input.tangents = [] <;>
    by_cases hx : input.textures = [] <;> by_cases hc : input.colors = [] <;>
    simp only [hn, ht, hx, hc, if_true, if_false, ite_true, ite_false,
      if_neg, if_pos] <;>
    decide

/-! ## C6: stride invariant -/

/-- C6: in every layout the planner produces, the stride recorded in each
descriptor equals the sum of the format byte sizes of all descriptors, and
every descriptor satisfies offset + size ≤ stride (hence offset < stride). -/
theorem set_up_attributes_stride_invariant (input : GeometryPatchInput) :
    ∀ attr ∈ set_up_attributes input,
      attr.stride = ((set_up_attributes input).map (fun a => SIZES a.format)).sum ∧
      attr.offset + SIZES attr.format ≤ attr.stride ∧
      attr.offset < attr.stride := by
  by_cases hn : input.normals = [] <;> by_cases ht : input.tangents = [] <;>
    by_cases hx : input.textures = [] <;> by_cases hc : input.colors = [] <;>
    · simp only [set_up_attributes, hn, ht, hx, hc]
      decide

/-- Witness for C6 at the all-streams layout's POSITION descriptor. -/
theorem set_up_attributes_stride_invariant_witness :
    (⟨"POSITION", "VEC3", false, 0, 44⟩ : AttributeInput).stride
      = ((set_up_attributes fullInput).map (fun a => SIZES a.format)).sum ∧
    (⟨"POSITION", "VEC3", false, 0, 44⟩ : AttributeInput).offset
        + SIZES (⟨"POSITION", "VEC3", false, 0, 44⟩ : AttributeInput).format
      ≤ (⟨"POSITION", "VEC3", false, 0, 44⟩ : AttributeInput).stride ∧
    (⟨"POSITION", "VEC3", false, 0, 44⟩ : AttributeInput).offset
      < (⟨"POSITION", "VEC3", false, 0, 44⟩ : AttributeInput).stride :=
  set_up_attributes_stride_invariant fullInput
    ⟨"POSITION", "VEC3", false, 0, 44⟩ (by decide)

/-! ## C9: instance defaults -/

/-- C9: `create_instances` with all four input lists empty yields exactly one
instance, whose four groups are position=(0,0,0,0), color=(1,1,1,1),
rotation=(0,0,0,0) and scale=(1,1,1,0). -/
theorem create_instances_defaults :
    create_instances [] [] [] [] =
      [[0, 0, 0, 0], [1, 1, 1, 1], [0, 0, 0, 0], [1, 1, 1, 0]] ∧
    create_instances [] [] [] [] =
      [DEFAULT_POSITION, DEFAULT_COLOR, DEFAULT_ROTATION, DEFAULT_SCALE] := by
  decide

/-! ## C3: empty input -/

/-- C3: `build_geometry_buffer` does accept empty vertex and empty index
input, producing an empty respective section — but `build_geometry_patch`
evaluates `input.indices[0]`, so an empty index list raises `IndexError`
(modelled `none`) instead of succeeding, contradicting the spec. -/
theorem empty_input_behavior :
    build_geometry_patch emptyIndicesInput = none ∧
    build_geometry_buffer emptyIndicesInput "U8" (set_up_attributes emptyIndicesInput)
      = ([0, 0, 0, 0, 0, 0, 0, 0, 0, 0, 0, 0], 12) ∧
    indexSection emptyIndicesInput "U8" = [] ∧
    (build_geometry_patch emptyVerticesInput).isSome = true ∧
    vertexSection emptyVerticesInput (set_up_attributes emptyVerticesInput) = [] := by
  decide

/-! ## C2: mismatched stream lengths -/

/-- C2 counterexample: with two vertices but only one normal, the encoder
does not fail — it returns a buffer whose vertex section is a single
24-byte interleaved record, silently truncating to the shortest stream. -/
theorem mismatch_truncates_counterexample :
    mismatchedInput.vertices.length = 2 ∧
    mismatchedInput.normals.length = 1 ∧
    build_geometry_buffer mismatchedInput "U8" (set_up_attributes mismatchedInput)
      = (vertexSection mismatchedInput (set_up_attributes mismatchedInput)
          ++ indexSection mismatchedInput "U8", 24) ∧
    (zipStar (presentData mismatchedInput)).length = 1 ∧
    sumSizes (set_up_attributes mismatchedInput) = 24 := by
  decide

/-- Lower bound of the running minimum over stream lengths. -/
theorem foldl_min_le (ls : List (List α)) :
    ∀ a : Nat, ls.foldl (fun m s => min m s.length) a ≤ a ∧
      ∀ s ∈ ls, ls.foldl (fun m s => min m s.length) a ≤ s.length := by
  induction ls with
  | nil => intro a; exact ⟨le_rfl, by simp⟩
  | cons l ls ih =>
    intro a
    refine ⟨le_trans (ih (min a l.length)).1 (min_le_left _ _), ?_⟩
    intro s hs
    rcases List.mem_cons.mp hs with h | h
    · subst h
      exact le_trans (ih (min a s.length)).1 (min_le_right _ _)
    · exact (ih (min a l.length)).2 s h

/-- The running minimum over stream lengths is attained. -/
theorem foldl_min_attained (ls : List (List α)) :
    ∀ a : Nat, ls.foldl (fun m s => min m s.length) a = a ∨
      ∃ s ∈ ls, ls.foldl (fun m s => min m s.length) a = s.length := by
  induction ls with
  | nil => intro a; exact Or.inl rfl
  | cons l ls ih =>
    intro a
    simp only [List.foldl_cons]
    rcases ih (min a l.length) with h | ⟨s, hs, h⟩
    · rcases Nat.le_total a l.length with hle | hle
      · left; rw [h, min_eq_left hle]
      · right; exact ⟨l, List.mem_cons_self _ _, by rw [h, min_eq_right hle]⟩
    · right; exact ⟨s, List.mem_cons_of_mem _ hs, h⟩

/-- C2 amended: the encoder never fails on mismatched per-vertex stream
lengths; `zip(*data)` pairs the present streams pointwise, so the number of
interleaved records is the minimum of the present stream lengths (at most
each of them, and equal to one of them). -/
theorem build_buffer_truncates_to_shortest (input : GeometryPatchInput)
    (index_format : String) (attrs : List AttributeInput) :
    (build_geometry_buffer input index_format attrs)
      = (vertexSection input attrs ++ indexSection input index_format,
         (vertexSection input attrs).length) ∧
    (∀ s ∈ presentData input, (zipStar (presentData input)).length ≤ s.length) ∧
    (presentData input ≠ [] →
      ∃ s ∈ presentData input, (zipStar (presentData input)).length = s.length) := by
  refine ⟨rfl, ?_, ?_⟩
  · intro s hs
    cases hd : presentData input with
    | nil => rw [hd] at hs; simp at hs
    | cons l ls =>
      rw [hd] at hs
      have hlen : (zipStar (l :: ls)).length =
          ls.foldl (fun m s => min m s.length) l.length := by
        simp [zipStar]
      rw [hlen]
      rcases List.mem_cons.mp hs with h | h
      · subst h; exact (foldl_min_le ls s.length).1
      · exact (foldl_min_le ls l.length).2 s h
  · intro hne
    cases hd : presentData input with
    | nil => exact absurd hd hne
    | cons l ls =>
      have hlen : (zipStar (l :: ls)).length =
          ls.foldl (fun m s => min m s.length) l.length := by
        simp [zipStar]
      rw [hlen]
      rcases foldl_min_attained ls l.length with h | ⟨s, hs, h⟩
      · exact ⟨l, List.mem_cons_self _ _, h⟩
      · exact ⟨s, List.mem_cons_of_mem _ hs, h⟩

/-- Witness for the amended C2 statement, at the mismatched input. -/
theorem build_buffer_truncates_to_shortest_witness :
    (build_geometry_buffer mismatchedInput "U8" (set_up_attributes mismatchedInput)
      = (vertexSection mismatchedInput (set_up_attributes mismatchedInput)
          ++ indexSection mismatchedInput "U8",
         (vertexSection mismatchedInput (set_up_attributes mismatchedInput)).length)) ∧
    (zipStar (presentData mismatchedInput)).length ≤ mismatchedInput.normals.length :=
  ⟨(build_buffer_truncates_to_shortest mismatchedInput "U8"
      (set_up_attributes mismatchedInput)).1,
   (build_buffer_truncates_to_shortest mismatchedInput "U8"
      (set_up_attributes mismatchedInput)).2.1 mismatchedInput.normals (by decide)⟩

/-! ## C4: decode-time corruption checks -/

/-- C4 counterexample: a 16-byte vertex section against a 12-byte stride (16
is not divisible by 12) raises nothing — the decoder emits a full record and
then a truncated one-component record, returning successfully. -/
theorem corrupt_section_decodes_counterexample :
    16 % 12 ≠ 0 ∧
    corruptBytes.length = 16 ∧
    sumSizes positionOnlyLayout = 12 ∧
    export_mesh_decode corruptBytes
      { format := "U8", count := 0, offset := 16 } positionOnlyLayout
      = some ([[0, 0, 0], [0]], [], []) := by
  decide

/-- C4 amended: there is no dedicated `CorruptBuffer` error.  An index byte
range exceeding the buffer length does make the decoder fail, via numpy's
`ValueError` (modelled `none`); a vertex-section length not divisible by the
stride is not itself rejected. -/
theorem export_decode_index_range_fails (bytes : List Nat) (index : IndexInfo)
    (attrs : List AttributeInput)
    (h : bytes.length <
      index.offset + index.count * (FORMAT_MAP index.format).itemsize) :
    export_mesh_decode bytes index attrs = none := by
  unfold export_mesh_decode frombufferCount
  rw [if_neg (by omega)]

/-- Witness for the amended C4 statement: reading one index scalar from an
empty buffer fails. -/
theorem export_decode_index_range_fails_witness :
    ([] : List Nat).length <
      0 + 1 * (FORMAT_MAP "U8").itemsize ∧
    export_mesh_decode [] { format := "U8", count := 1, offset := 0 }
      positionOnlyLayout = none :=
  ⟨by decide,
   export_decode_index_range_fails [] { format := "U8", count := 1, offset := 0 }
     positionOnlyLayout (by decide)⟩

/-! ## C7: index descriptor invariant and the triangle scenario -/

/-- C7: for every successful encode, the index descriptor's offset equals the
byte length of the interleaved vertex section, its count equals
`len(index_groups) * len(index_groups[0])`, and the buffer is exactly the
vertex section followed by the index section; in the triangle scenario the
offset is 36 and the buffer holds 39 bytes. -/
theorem build_patch_index_descriptor :
    (∀ input p, build_geometry_patch input = some p →
      p.indices.offset = (vertexSection input (set_up_attributes input)).length ∧
      p.indices.count = input.indices.length * (input.indices.headD []).length ∧
      p.buffer = vertexSection input (set_up_attributes input)
        ++ indexSection input p.indices.format) ∧
    trianglePatch.indices.offset = 36 ∧
    trianglePatch.buffer.length = 39 ∧
    trianglePatch.indices.count = 3 := by
  constructor
  · intro input p hp
    cases hidx : input.indices with
    | nil => simp [build_geometry_patch, hidx] at hp
    | cons g0 rest =>
      simp only [build_geometry_patch, hidx] at hp
      cases hp
      simp [build_geometry_buffer, hidx]
  · exact ⟨by decide, by decide, by decide⟩

/-- Witness for C7 at the triangle input. -/
theorem build_patch_index_descriptor_witness :
    trianglePatch.indices.offset
      = (vertexSection triangleInput (set_up_attributes triangleInput)).length ∧
    trianglePatch.indices.count
      = triangleInput.indices.length * (triangleInput.indices.headD []).length :=
  ⟨((build_patch_index_descriptor.1) triangleInput trianglePatch (by decide)).1,
   ((build_patch_index_descriptor.1) triangleInput trianglePatch (by decide)).2.1⟩

/-! ## Byte-level round-trip lemmas -/

theorem itemsize_pos (d : Dtype) : 0 < d.itemsize := by
  cases d <;> simp [Dtype.itemsize]

theorem toLE_length (w : Nat) : ∀ m, (toLE w m).length = w := by
  induction w with
  | zero => intro m; rfl
  | succ w ih => intro m; simp [toLE, ih]

theorem fromLE_toLE (w : Nat) : ∀ m, m < 2 ^ (8 * w) → fromLE (toLE w m) = m := by
  induction w with
  | zero =>
    intro m hm
    simp only [Nat.mul_zero, pow_zero, Nat.lt_one_iff] at hm
    simp [toLE, fromLE, hm]
  | succ w ih =>
    intro m hm
    have hpow : 2 ^ (8 * (w + 1)) = 2 ^ (8 * w) * 256 := by
      rw [Nat.mul_succ, pow_add]; norm_num
    simp only [toLE, fromLE]
    rw [ih (m / 256) (by omega)]
    omega

theorem encodeElem_length (d : Dtype) (v : Int) :
    (encodeElem d v).length = d.itemsize := by
  simp [encodeElem, toLE_length]

/-- Elements within the representable range of their type survive the
serialize/deserialize round trip. -/
theorem decodeElem_encodeElem (d : Dtype) (v : Int) (h : inRange d v) :
    decodeElem d (encodeElem d v) = v := by
  cases d with
  | f32 =>
    obtain ⟨h0, h1⟩ := h
    simp only [encodeElem, decodeElem, Dtype.itemsize]
    norm_num
    rw [fromLE_toLE 4 (v % 4294967296).toNat (by norm_num; omega)]
    omega
  | i8 =>
    obtain ⟨h0, h1⟩ := h
    simp only [inRange, Dtype.itemsize] at h0 h1
    norm_num at h0 h1
    simp only [encodeElem, decodeElem, Dtype.itemsize]
    norm_num
    rw [fromLE_toLE 1 (v % 256).toNat (by norm_num; omega)]
    split_ifs <;> omega
  | i16 =>
    obtain ⟨h0, h1⟩ := h
    simp only [inRange, Dtype.itemsize] at h0 h1
    norm_num at h0 h1
    simp only [encodeElem, decodeElem, Dtype.itemsize]
    norm_num
    rw [fromLE_toLE 2 (v % 65536).toNat (by norm_num; omega)]
    split_ifs <;> omega
  | i32 =>
    obtain ⟨h0, h1⟩ := h
    simp only [inRange, Dtype.itemsize] at h0 h1
    norm_num at h0 h1
    simp only [encodeElem, decodeElem, Dtype.itemsize]
    norm_num
    rw [fromLE_toLE 4 (v % 4294967296).toNat (by norm_num; omega)]
    split_ifs <;> omega

theorem encodeTuple_nil (d : Dtype) : encodeTuple d [] = [] := rfl

theorem encodeTuple_cons (d : Dtype) (v : Int) (t : List Int) :
    encodeTuple d (v :: t) = encodeElem d v ++ encodeTuple d t := by
  simp [encodeTuple]

theorem encodeTuple_length (d : Dtype) (t : List Int) :
    (encodeTuple d t).length = t.length * d.itemsize := by
  induction t with
  | nil => simp [encodeTuple]
  | cons v t ih =>
    rw [encodeTuple_cons]
    simp [encodeElem_length, ih, Nat.succ_mul]
    omega

/-- One step of the chunk splitter over a chunk of exactly one element. -/
theorem decodeChunksAux_chunk (d : Dtype) (chunk rest : List Nat) (fuel : Nat)
    (hc : chunk.length = d.itemsize) :
    decodeChunksAux d (fuel + 1) (chunk ++ rest)
      = decodeElem d chunk :: decodeChunksAux d fuel rest := by
  have hpos : 0 < d.itemsize := itemsize_pos d
  cases chunk with
  | nil => simp at hc; omega
  | cons b bs =>
    have hrw : (b :: bs) ++ rest = b :: (bs ++ rest) := rfl
    have h1 : (b :: (bs ++ rest)).take d.itemsize = b :: bs := by
      rw [← hrw]; exact List.take_left' hc
    have h2 : (b :: (bs ++ rest)).drop d.itemsize = rest := by
      rw [← hrw]; exact List.drop_left' hc
    calc decodeChunksAux d (fuel + 1) ((b :: bs) ++ rest)
        = decodeElem d ((b :: (bs ++ rest)).take d.itemsize)
            :: decodeChunksAux d fuel ((b :: (bs ++ rest)).drop d.itemsize) := rfl
      _ = decodeElem d (b :: bs) :: decodeChunksAux d fuel rest := by rw [h1, h2]

theorem decodeChunksAux_encodeTuple (d : Dtype) :
    ∀ (vs : List Int) (fuel : Nat), (encodeTuple d vs).length ≤ fuel →
      decodeChunksAux d fuel (encodeTuple d vs)
        = vs.map (fun v => decodeElem d (encodeElem d v)) := by
  intro vs
  induction vs with
  | nil => intro fuel _; cases fuel <;> rfl
  | cons v vs ih =>
    intro fuel hf
    rw [encodeTuple_cons] at hf ⊢
    have hev := encodeElem_length d v
    have hpos := itemsize_pos d
    cases fuel with
    | zero =>
      exfalso
      rw [List.length_append, hev] at hf
      omega
    | succ fuel =>
      rw [decodeChunksAux_chunk d _ _ fuel hev]
      rw [ih fuel (by rw [List.length_append, hev] at hf; omega)]
      simp

/-- In-range tuples survive `tobytes` followed by a chunked `frombuffer`. -/
theorem decodeChunks_encodeTuple (d : Dtype) (vs : List Int)
    (h : ∀ v ∈ vs, inRange d v) :
    decodeChunks d (encodeTuple d vs) = vs := by
  unfold decodeChunks
  rw [decodeChunksAux_encodeTuple d vs _ le_rfl]
  have heq : ∀ v ∈ vs, decodeElem d (encodeElem d v) = v :=
    fun v hv => decodeElem_encodeElem d v (h v hv)
  calc vs.map (fun v => decodeElem d (encodeElem d v)) = vs.map id :=
        List.map_congr_left heq
    _ = vs := List.map_id vs

/-- `np.frombuffer` (no count) on the serialized image of a tuple. -/
theorem frombuffer_encodeTuple (d : Dtype) (vs : List Int)
    (h : ∀ v ∈ vs, inRange d v) :
    frombuffer d (encodeTuple d vs) = some vs := by
  unfold frombuffer
  rw [encodeTuple_length, if_pos (Nat.mul_mod_left _ _),
    decodeChunks_encodeTuple d vs h]

/-- The flat index scalar count of uniform 3-groups matches the
`len(indices) * len(indices[0])` the source computes. -/
theorem flatten_count_of_three (indices : List (List Int))
    (h3 : ∀ g ∈ indices, g.length = 3) :
    indices.flatten.length = indices.length * (indices.headD []).length := by
  cases indices with
  | nil => simp
  | cons g rest =>
    have hg : g.length = 3 := h3 g (by simp)
    rw [List.length_flatten]
    have hmap : (g :: rest).map List.length
        = List.replicate (g :: rest).length 3 := by
      rw [show (g :: rest).map List.length
          = (g :: rest).map (Function.const _ 3) from
          List.map_congr_left (fun s hs => h3 s hs), List.map_const]
    rw [hmap]
    simp [List.sum_replicate, smul_eq_mul, hg]

/-- Regrouping the flattened uniform 3-groups recovers them. -/
theorem groups3_flatten (indices : List (List Int))
    (h3 : ∀ g ∈ indices, g.length = 3) :
    groups3 indices.flatten = indices := by
  induction indices with
  | nil => rfl
  | cons g rest ih =>
    have hg : g.length = 3 := h3 g (by simp)
    obtain ⟨a, b, c, hge⟩ : ∃ a b c, g = [a, b, c] := by
      cases g with
      | nil => simp at hg
      | cons a g' =>
        cases g' with
        | nil => simp at hg
        | cons b g'' =>
          cases g'' with
          | nil => simp at hg
          | cons c g''' =>
            cases g''' with
            | nil => exact ⟨a, b, c, rfl⟩
            | cons d g'''' => simp at hg
    subst hge
    have hfl : ([a, b, c] :: rest).flatten = a :: b :: c :: rest.flatten := by simp
    rw [hfl]
    show [a, b, c] :: groups3 rest.flatten = [a, b, c] :: rest
    rw [ih (fun s hs => h3 s (by simp [hs]))]

/-- Decoding the index section appended after the vertex section returns the
flat index scalars, and regrouping returns the original groups. -/
theorem index_decode_of_append (d : Dtype) (pre : List Nat)
    (indices : List (List Int))
    (h3 : ∀ g ∈ indices, g.length = 3)
    (hr : ∀ g ∈ indices, ∀ v ∈ g, inRange d v) :
    frombufferCount d (pre ++ encodeTuple d indices.flatten)
        (indices.length * (indices.headD []).length) pre.length
      = some indices.flatten ∧
    groups3 indices.flatten = indices := by
  have hflat : ∀ v ∈ indices.flatten, inRange d v := by
    intro v hv
    obtain ⟨g, hg, hvg⟩ := List.mem_flatten.mp hv
    exact hr g hg v hvg
  have hcount : indices.length * (indices.headD []).length * d.itemsize
      = (encodeTuple d indices.flatten).length := by
    rw [encodeTuple_length, flatten_count_of_three indices h3]
  refine ⟨?_, groups3_flatten indices h3⟩
  unfold frombufferCount
  rw [if_pos (by rw [hcount, List.length_append])]
  rw [hcount, List.drop_left, List.take_length,
    decodeChunks_encodeTuple d _ hflat]

/-- The range hypothesis the round trip needs for indices: any value that
fits the signed half of the format selected by `get_format` is in range. -/
theorem inRange_of_index_bound (n : Nat) (v : Int) (h0 : 0 ≤ v)
    (h1 : v < 2 ^ (8 * (FORMAT_MAP (get_format n)).itemsize - 1)) :
    inRange (FORMAT_MAP (get_format n)) v := by
  have hg : get_format n = "U8" ∨ get_format n = "U16" ∨ get_format n = "U32" := by
    unfold get_format; split_ifs <;> simp
  rcases hg with hg | hg | hg <;> rw [hg] at h1 ⊢
  · rw [show FORMAT_MAP "U8" = Dtype.i8 from rfl] at h1 ⊢
    simp only [inRange, Dtype.itemsize] at h1 ⊢
    norm_num at h1 ⊢
    omega
  · rw [show FORMAT_MAP "U16" = Dtype.i16 from rfl] at h1 ⊢
    simp only [inRange, Dtype.itemsize] at h1 ⊢
    norm_num at h1 ⊢
    omega
  · rw [show FORMAT_MAP "U32" = Dtype.i32 from rfl] at h1 ⊢
    simp only [inRange, Dtype.itemsize] at h1 ⊢
    norm_num at h1 ⊢
    omega

/-! ## C10: signed index serialization -/

/-- C10: the index formats selected by `get_format` are serialized through
the signed numpy types of `FORMAT_MAP`, so an index value in the upper half
of the selected w-bit range comes back as `v - 2^w` after the encode/decode
round trip. -/
theorem index_signed_wraparound (n v : Nat)
    (h1 : 2 ^ (8 * (FORMAT_MAP (get_format n)).itemsize - 1) ≤ v)
    (h2 : v < 2 ^ (8 * (FORMAT_MAP (get_format n)).itemsize)) :
    decodeElem (FORMAT_MAP (get_format n))
        (encodeElem (FORMAT_MAP (get_format n)) (v : Int)) =
      (v : Int) - 2 ^ (8 * (FORMAT_MAP (get_format n)).itemsize) := by
  have hg : get_format n = "U8" ∨ get_format n = "U16" ∨ get_format n = "U32" := by
    unfold get_format; split_ifs <;> simp
  rcases hg with hg | hg | hg <;> rw [hg] at h1 h2 ⊢
  · rw [show FORMAT_MAP "U8" = Dtype.i8 from rfl] at h1 h2 ⊢
    simp only [Dtype.itemsize] at h1 h2 ⊢
    norm_num at h1 h2 ⊢
    simp only [encodeElem, decodeElem, Dtype.itemsize]
    norm_num
    rw [fromLE_toLE 1 ((v : Int) % 256).toNat (by norm_num; omega)]
    split_ifs <;> omega
  · rw [show FORMAT_MAP "U16" = Dtype.i16 from rfl] at h1 h2 ⊢
    simp only [Dtype.itemsize] at h1 h2 ⊢
    norm_num at h1 h2 ⊢
    simp only [encodeElem, decodeElem, Dtype.itemsize]
    norm_num
    rw [fromLE_toLE 2 ((v : Int) % 65536).toNat (by norm_num; omega)]
    split_ifs <;> omega
  · rw [show FORMAT_MAP "U32" = Dtype.i32 from rfl] at h1 h2 ⊢
    simp only [Dtype.itemsize] at h1 h2 ⊢
    norm_num at h1 h2 ⊢
    simp only [encodeElem, decodeElem, Dtype.itemsize]
    norm_num
    rw [fromLE_toLE 4 ((v : Int) % 4294967296).toNat (by norm_num; omega)]
    split_ifs <;> omega

/-- Witness for C10: with fewer than 256 vertices the 8-bit format is
selected and index value 200 decodes as -56. -/
theorem index_signed_wraparound_witness :
    2 ^ (8 * (FORMAT_MAP (get_format 0)).itemsize - 1) ≤ 200 ∧
    decodeElem (FORMAT_MAP (get_format 0))
        (encodeElem (FORMAT_MAP (get_format 0)) (200 : Nat)) = -56 :=
  ⟨by decide,
   by rw [index_signed_wraparound 0 200 (by decide) (by decide)]; decide⟩

/-! ## Record-level decode lemmas -/

theorem encodePoint_nil (attrs : List AttributeInput) :
    encodePoint attrs [] = [] := rfl

theorem encodePoint_cons (a : AttributeInput) (attrs : List AttributeInput)
    (t : List Int) (point : List (List Int)) :
    encodePoint (a :: attrs) (t :: point)
      = encodeTuple (FORMAT_MAP a.format) t ++ encodePoint attrs point := by
  simp [encodePoint]

theorem encodePoint_length (attrs : List AttributeInput) :
    ∀ (point : List (List Int)), point.length = attrs.length →
      (∀ p ∈ point.zip attrs, goodTuple p.2 p.1) →
      (encodePoint attrs point).length = sumSizes attrs := by
  induction attrs with
  | nil =>
    intro point hlen _
    have hp : point = [] := List.length_eq_zero.mp (by simpa using hlen)
    subst hp
    rfl
  | cons a attrs ih =>
    intro point hlen hgood
    cases point with
    | nil => simp at hlen
    | cons t point =>
      rw [encodePoint_cons, List.length_append, encodeTuple_length]
      have hgt : goodTuple a t := hgood (t, a) (by simp)
      rw [hgt.1, ih point (by simpa using hlen)
        (fun p hp => hgood p (by simp [hp]))]
      simp [sumSizes]

/-- The decoder's inner attribute walk over one full record: it consumes
exactly one stride of bytes and routes each attribute's tuple. -/
theorem stepAttributes_record (attrs : List AttributeInput) :
    ∀ (point : List (List Int)) (ab rest : List Nat) (i : Nat)
      (points : List (List Int)) (pdata : List (String × List (List Int))),
      point.length = attrs.length →
      (∀ p ∈ point.zip attrs, goodTuple p.2 p.1) →
      ab.drop i = encodePoint attrs point ++ rest →
      stepAttributes attrs ab i points pdata
        = some (i + sumSizes attrs,
            List.foldl routeStep (points, pdata) (point.zip attrs)) := by
  induction attrs with
  | nil =>
    intro point ab rest i points pdata hlen _ _
    have hp : point = [] := List.length_eq_zero.mp (by simpa using hlen)
    subst hp
    simp [stepAttributes, sumSizes]
  | cons a attrs ih =>
    intro point ab rest i points pdata hlen hgood hdrop
    cases point with
    | nil => simp at hlen
    | cons t point =>
      have hgt : goodTuple a t := hgood (t, a) (by simp)
      have htlen : (encodeTuple (FORMAT_MAP a.format) t).length = SIZES a.format := by
        rw [encodeTuple_length]; exact hgt.1
      have hdrop1 : ab.drop i = encodeTuple (FORMAT_MAP a.format) t
          ++ (encodePoint attrs point ++ rest) := by
        rw [hdrop, encodePoint_cons, List.append_assoc]
      have hchunk : (ab.drop i).take (SIZES a.format)
          = encodeTuple (FORMAT_MAP a.format) t := by
        rw [hdrop1]; exact List.take_left' htlen
      have hfb : frombuffer (FORMAT_MAP a.format)
            ((ab.drop i).take (SIZES a.format)) = some t := by
        rw [hchunk]; exact frombuffer_encodeTuple _ _ hgt.2
      have hdrop2 : ab.drop (i + SIZES a.format)
          = encodePoint attrs point ++ rest := by
        rw [← List.drop_drop, hdrop1]
        exact List.drop_left' htlen
      have hrec := ih point ab rest (i + SIZES a.format)
      have hsum : sumSizes (a :: attrs) = SIZES a.format + sumSizes attrs := by
        simp [sumSizes]
      have hzip : (t :: point).zip (a :: attrs) = (t, a) :: point.zip attrs := rfl
      simp only [stepAttributes, hfb]
      split_ifs with hsem
      · rw [hrec (points ++ [t]) pdata (by simpa using hlen)
          (fun p hp => hgood p (by simp [hp])) hdrop2]
        have hroute : routeStep (points, pdata) (t, a) = (points ++ [t], pdata) := by
          simp [routeStep, hsem]
        rw [hsum, hzip, List.foldl_cons, hroute, ← Nat.add_assoc]
      · rw [hrec points (setdefaultAppend pdata a.semantic t)
          (by simpa using hlen) (fun p hp => hgood p (by simp [hp])) hdrop2]
        have hroute : routeStep (points, pdata) (t, a)
            = (points, setdefaultAppend pdata a.semantic t) := by
          simp [routeStep, hsem]
        rw [hsum, hzip, List.foldl_cons, hroute, ← Nat.add_assoc]

/-- The decoder's outer while-loop over a sequence of full records. -/
theorem decodeLoop_records (attrs : List AttributeInput)
    (hstride : 0 < sumSizes attrs) :
    ∀ (recs : List (List (List Int))) (fuel : Nat) (ab : List Nat) (i : Nat)
      (points : List (List Int)) (pdata : List (String × List (List Int))),
      recs.length < fuel →
      (∀ r ∈ recs, r.length = attrs.length ∧ ∀ p ∈ r.zip attrs, goodTuple p.2 p.1) →
      ab.drop i = (recs.map (encodePoint attrs)).flatten →
      decodeLoop fuel attrs ab i points pdata
        = some (recs.foldl
            (fun acc r => List.foldl routeStep acc (r.zip attrs))
            (points, pdata)) := by
  intro recs
  induction recs with
  | nil =>
    intro fuel ab i points pdata hfuel hgood hdrop
    cases fuel with
    | zero => omega
    | succ fuel =>
      have hout : ¬ i < ab.length := by
        have h0 : ab.length - i = 0 := by
          rw [← List.length_drop, hdrop]; rfl
        omega
      simp [decodeLoop, hout]
  | cons r recs ih =>
    intro fuel ab i points pdata hfuel hgood hdrop
    cases fuel with
    | zero => omega
    | succ fuel =>
      obtain ⟨hrlen, hrgood⟩ := hgood r (by simp)
      have hrec_len : (encodePoint attrs r).length = sumSizes attrs :=
        encodePoint_length attrs r hrlen hrgood
      have hflat : ((r :: recs).map (encodePoint attrs)).flatten
          = encodePoint attrs r ++ (recs.map (encodePoint attrs)).flatten := by
        simp
      rw [hflat] at hdrop
      have hi : i < ab.length := by
        have hlen : ab.length - i = (encodePoint attrs r).length
            + ((recs.map (encodePoint attrs)).flatten).length := by
          rw [← List.length_drop, hdrop, List.length_append]
        rw [hrec_len] at hlen
        omega
      have hstep := stepAttributes_record attrs r ab
        ((recs.map (encodePoint attrs)).flatten) i points pdata hrlen hrgood hdrop
      have hdropnext : ab.drop (i + sumSizes attrs)
          = (recs.map (encodePoint attrs)).flatten := by
        rw [← List.drop_drop, hdrop, ← hrec_len]
        exact List.drop_left _ _
      simp only [decodeLoop, if_pos hi, hstep]
      rw [ih fuel ab (i + sumSizes attrs) _ _ (by simpa using Nat.lt_of_succ_lt_succ hfuel)
        (fun r hr => hgood r (by simp [hr])) hdropnext]
      simp

/-! ## Routing-fold lemmas: how `point_data` accumulates across records -/

theorem setdefault_map_skip (l : List (String × List (List Int))) (k : String)
    (val : List Int) (h : k ∉ l.map Prod.fst) :
    l.map (fun p => if p.1 = k then (p.1, p.2 ++ [val]) else p) = l := by
  have hid : ∀ p ∈ l, (if p.1 = k then (p.1, p.2 ++ [val]) else p) = p := by
    intro p hp
    rw [if_neg]
    intro he
    exact h (he ▸ List.mem_map_of_mem Prod.fst hp)
  rw [List.map_congr_left hid]
  exact List.map_id' l

theorem setdefaultAppend_new (pdata : List (String × List (List Int)))
    (k : String) (val : List Int) (h : k ∉ pdata.map Prod.fst) :
    setdefaultAppend pdata k val = pdata ++ [(k, [val])] := by
  simp [setdefaultAppend, h]

theorem setdefaultAppend_mid (pre pd : List (String × List (List Int)))
    (k : String) (vs : List (List Int)) (val : List Int)
    (hpre : k ∉ pre.map Prod.fst) (hpd : k ∉ pd.map Prod.fst) :
    setdefaultAppend (pre ++ (k, vs) :: pd) k val
      = pre ++ (k, vs ++ [val]) :: pd := by
  unfold setdefaultAppend
  rw [if_pos (by simp)]
  simp only [List.map_append, List.map_cons]
  rw [setdefault_map_skip pre k val hpre, setdefault_map_skip pd k val hpd]
  simp

/-- Routing a record whose semantics are all new keys appends them to
`point_data` in attribute order, one singleton list each. -/
theorem fold_route_insert :
    ∀ (items : List (List Int × AttributeInput))
      (pre : List (String × List (List Int))) (points : List (List Int)),
      (∀ q ∈ items, q.2.semantic ≠ "POSITION") →
      (items.map (fun q => q.2.semantic)).Nodup →
      (∀ q ∈ items, q.2.semantic ∉ pre.map Prod.fst) →
      List.foldl routeStep (points, pre) items
        = (points, pre ++ items.map (fun q => (q.2.semantic, [q.1]))) := by
  intro items
  induction items with
  | nil => intro pre points _ _ _; simp
  | cons q items ih =>
    intro pre points hnp hnd hnew
    rw [List.map_cons] at hnd
    have hnd' := List.nodup_cons.mp hnd
    simp only [List.foldl_cons]
    have hq : routeStep (points, pre) q
        = (points, pre ++ [(q.2.semantic, [q.1])]) := by
      simp only [routeStep, if_neg (hnp q (by simp))]
      rw [setdefaultAppend_new pre q.2.semantic q.1 (hnew q (by simp))]
    rw [hq, ih (pre ++ [(q.2.semantic, [q.1])]) points
      (fun p hp => hnp p (by simp [hp])) hnd'.2 ?_]
    · simp
    · intro p hp
      simp only [List.map_append, List.mem_append]
      rintro (h | h)
      · exact hnew p (by simp [hp]) h
      · have hpq : p.2.semantic = q.2.semantic := by simpa using h
        exact hnd'.1
          (hpq ▸ List.mem_map_of_mem (fun q => q.2.semantic) hp)

/-- Routing a record whose semantics are exactly the existing keys (in order)
appends each tuple to its key's list. -/
theorem fold_route_update :
    ∀ (items : List (List Int × AttributeInput))
      (pre pd : List (String × List (List Int))) (points : List (List Int)),
      (∀ q ∈ items, q.2.semantic ≠ "POSITION") →
      pd.map Prod.fst = items.map (fun q => q.2.semantic) →
      ((pre ++ pd).map Prod.fst).Nodup →
      List.foldl routeStep (points, pre ++ pd) items
        = (points,
           pre ++ (pd.zip items).map (fun w => (w.1.1, w.1.2 ++ [w.2.1]))) := by
  intro items
  induction items with
  | nil =>
    intro pre pd points _ hkeys _
    have hpd : pd = [] := by
      have h0 : pd.map Prod.fst = [] := by simpa using hkeys
      simpa using List.map_eq_nil_iff.mp h0
    rw [hpd]
    simp
  | cons q items ih =>
    intro pre pd points hnp hkeys hnd
    cases pd with
    | nil => simp at hkeys
    | cons kv pd =>
      obtain ⟨k, vs⟩ := kv
      have hkeys' : k :: pd.map Prod.fst
          = q.2.semantic :: items.map (fun q => q.2.semantic) := by
        simpa using hkeys
      injection hkeys' with hk htail
      have hnd' : (pre.map Prod.fst ++ k :: pd.map Prod.fst).Nodup := by
        simpa using hnd
      rw [List.nodup_append] at hnd'
      have hkpd : k ∉ pd.map Prod.fst := (List.nodup_cons.mp hnd'.2.1).1
      have hkpre : k ∉ pre.map Prod.fst :=
        fun hmem => hnd'.2.2 hmem (by simp)
      have hq : routeStep (points, pre ++ (k, vs) :: pd) q
          = (points, pre ++ (k, vs ++ [q.1]) :: pd) := by
        simp only [routeStep, if_neg (hnp q (by simp))]
        rw [← hk, setdefaultAppend_mid pre pd k vs q.1 hkpre hkpd]
      have hkeyeq : ((pre ++ [(k, vs ++ [q.1])]) ++ pd).map Prod.fst
          = (pre ++ (k, vs) :: pd).map Prod.fst := by simp
      have hstep := ih (pre ++ [(k, vs ++ [q.1])]) pd points
        (fun p hp => hnp p (by simp [hp])) htail (by rw [hkeyeq]; exact hnd)
      simp only [List.foldl_cons]
      rw [hq,
        show pre ++ (k, vs ++ [q.1]) :: pd
          = (pre ++ [(k, vs ++ [q.1])]) ++ pd by simp,
        hstep]
      simp

/-! ## Zip/fold algebra for the accumulated streams -/

theorem zip_sem_init (rattrs : List AttributeInput) :
    ∀ hs : List (List Int), hs.length = rattrs.length →
      (hs.zip rattrs).map (fun q => (q.2.semantic, [q.1]))
        = (rattrs.zip (hs.map (fun h => [h]))).map
            (fun w => (w.1.semantic, w.2)) := by
  induction rattrs with
  | nil => intro hs _; simp
  | cons a rattrs ih =>
    intro hs hlen
    cases hs with
    | nil => simp at hlen
    | cons h hs =>
      simp only [List.map_cons, List.zip_cons_cons]
      rw [ih hs (by simpa using hlen)]

theorem zip_sem_step (rattrs : List AttributeInput) :
    ∀ (acc : List (List (List Int))) (hs : List (List Int)),
      acc.length = rattrs.length → hs.length = rattrs.length →
      ((((rattrs.zip acc).map (fun w => (w.1.semantic, w.2))).zip
          (hs.zip rattrs)).map (fun w => (w.1.1, w.1.2 ++ [w.2.1])))
        = (rattrs.zip (List.zipWith (fun a h => a ++ [h]) acc hs)).map
            (fun w => (w.1.semantic, w.2)) := by
  induction rattrs with
  | nil => intro acc hs _ _; simp
  | cons a rattrs ih =>
    intro acc hs hal hhl
    cases acc with
    | nil => simp at hal
    | cons ac acc =>
      cases hs with
      | nil => simp at hhl
      | cons h hs =>
        simp only [List.zip_cons_cons, List.map_cons, List.zipWith_cons_cons]
        rw [ih acc hs (by simpa using hal) (by simpa using hhl)]

theorem zipWith_append_nil :
    ∀ (acc ss : List (List (List Int))), (∀ s ∈ ss, s = []) →
      ss.length = acc.length →
      List.zipWith (· ++ ·) acc ss = acc := by
  intro acc
  induction acc with
  | nil => intro ss _ _; simp
  | cons a acc ih =>
    intro ss hnil hlen
    cases ss with
    | nil => simp at hlen
    | cons s ss =>
      rw [List.zipWith_cons_cons, hnil s (by simp), List.append_nil,
        ih ss (fun s hs => hnil s (by simp [hs])) (by simpa using hlen)]

theorem zipWith_headD_tail :
    ∀ (acc ss : List (List (List Int))), (∀ s ∈ ss, s ≠ []) →
      List.zipWith (· ++ ·)
          (List.zipWith (fun a h => a ++ [h]) acc
            (ss.map (fun s => s.headD [])))
          (ss.map (fun s => s.tail))
        = List.zipWith (· ++ ·) acc ss := by
  intro acc
  induction acc with
  | nil => intro ss _; simp
  | cons a acc ih =>
    intro ss hne
    cases ss with
    | nil => simp
    | cons s ss =>
      simp only [List.map_cons, List.zipWith_cons_cons]
      rw [ih ss (fun s hs => hne s (by simp [hs]))]
      congr 1
      cases s with
      | nil => exact absurd rfl (hne [] (by simp))
      | cons x s => simp

theorem zipWith_singleton_head_tail :
    ∀ (ss : List (List (List Int))), (∀ s ∈ ss, s ≠ []) →
      List.zipWith (· ++ ·) (ss.map (fun s => [s.headD []]))
          (ss.map (fun s => s.tail))
        = ss := by
  intro ss
  induction ss with
  | nil => intro _; simp
  | cons s ss ih =>
    intro hne
    simp only [List.map_cons, List.zipWith_cons_cons]
    rw [ih (fun s hs => hne s (by simp [hs]))]
    congr 1
    cases s with
    | nil => exact absurd rfl (hne [] (by simp))
    | cons x s => simp

/-! ## Structure of `zip(*data)` for equal-length streams -/

theorem foldl_min_const (n : Nat) :
    ∀ (ls : List (List (List Int))), (∀ s ∈ ls, s.length = n) →
      ls.foldl (fun m s => min m s.length) n = n := by
  intro ls
  induction ls with
  | nil => intro _; rfl
  | cons s ls ih =>
    intro h
    simp only [List.foldl_cons, h s (by simp), min_self]
    exact ih (fun s hs => h s (by simp [hs]))

theorem zipStar_of_len (data : List (List (List Int))) (n : Nat)
    (hne : data ≠ []) (hlen : ∀ s ∈ data, s.length = n) :
    zipStar data
      = (List.range n).map (fun i => data.map (fun s => s.getD i [])) := by
  cases data with
  | nil => exact absurd rfl hne
  | cons l ls =>
    have hl : l.length = n := hlen l (by simp)
    have hfold : ls.foldl (fun m s => min m s.length) l.length = n := by
      rw [hl]; exact foldl_min_const n ls (fun s hs => hlen s (by simp [hs]))
    simp only [zipStar]
    rw [hfold]

theorem getD_zero_headD (s : List (List Int)) : s.getD 0 [] = s.headD [] := by
  cases s <;> rfl

theorem getD_succ_tail (s : List (List Int)) (i : Nat) :
    s.getD (i + 1) [] = s.tail.getD i [] := by
  cases s <;> rfl

theorem zipStar_succ (data : List (List (List Int))) (n : Nat)
    (hne : data ≠ []) (hlen : ∀ s ∈ data, s.length = n + 1) :
    zipStar data
      = (data.map (fun s => s.headD []))
        :: zipStar (data.map (fun s => s.tail)) := by
  rw [zipStar_of_len data (n + 1) hne hlen,
    zipStar_of_len (data.map (fun s => s.tail)) n
      (by simpa using hne)
      (by
        intro s hs
        obtain ⟨t, ht, rfl⟩ := List.mem_map.mp hs
        have := hlen t ht
        simp [List.length_tail, this])]
  rw [List.range_succ_eq_map, List.map_cons]
  congr 1
  · exact List.map_congr_left (fun s _ => getD_zero_headD s)
  · rw [List.map_map]
    refine List.map_congr_left ?_
    intro i _
    simp only [Function.comp_apply, Nat.succ_eq_add_one, List.map_map]
    exact List.map_congr_left (fun s _ => getD_succ_tail s i)

/-- Helper: the keys of a `(rattrs.zip acc)`-shaped `point_data` are the
attribute semantics. -/
theorem pd_keys (rattrs : List AttributeInput) :
    ∀ acc : List (List (List Int)), acc.length = rattrs.length →
      ((rattrs.zip acc).map (fun w => (w.1.semantic, w.2))).map Prod.fst
        = rattrs.map (fun a => a.semantic) := by
  induction rattrs with
  | nil => intro acc _; simp
  | cons a rattrs ih =>
    intro acc hlen
    cases acc with
    | nil => simp at hlen
    | cons x acc =>
      simp only [List.zip_cons_cons, List.map_cons]
      rw [ih acc (by simpa using hlen)]

/-- Helper: the semantics of the per-record items are the attribute
semantics. -/
theorem items_sems (rattrs : List AttributeInput) :
    ∀ hs : List (List Int), hs.length = rattrs.length →
      (hs.zip rattrs).map (fun q => (q.2.semantic))
        = rattrs.map (fun a => a.semantic) := by
  induction rattrs with
  | nil => intro hs _; simp
  | cons a rattrs ih =>
    intro hs hlen
    cases hs with
    | nil => simp at hlen
    | cons h hs =>
      simp only [List.zip_cons_cons, List.map_cons]
      rw [ih hs (by simpa using hlen)]

/-- Folding the decoder's routing over all records of equal-length streams,
starting from a `point_data` that already holds each semantic's previously
accumulated tuples. -/
theorem fold_records_general (posA : AttributeInput)
    (rattrs : List AttributeInput)
    (hpos : posA.semantic = "POSITION")
    (hnp : ∀ a ∈ rattrs, a.semantic ≠ "POSITION")
    (hnd : (rattrs.map (fun a => a.semantic)).Nodup) :
    ∀ (vts : List (List Int)) (ss acc : List (List (List Int)))
      (P0 : List (List Int)),
      ss.length = rattrs.length → acc.length = rattrs.length →
      (∀ s ∈ ss, s.length = vts.length) →
      List.foldl (fun accu r => List.foldl routeStep accu (r.zip (posA :: rattrs)))
          (P0, (rattrs.zip acc).map (fun w => (w.1.semantic, w.2)))
          (zipStar (vts :: ss))
        = (P0 ++ vts,
           (rattrs.zip (List.zipWith (· ++ ·) acc ss)).map
             (fun w => (w.1.semantic, w.2))) := by
  intro vts
  induction vts with
  | nil =>
    intro ss acc P0 hsl hal hlen
    have hz : zipStar ([] :: ss) = [] := by
      rw [zipStar_of_len ([] :: ss) 0 (by simp) ?_]
      · simp
      · intro s hs
        rcases List.mem_cons.mp hs with h | h
        · simp [h]
        · simpa using hlen s h
    rw [hz]
    simp only [List.foldl_nil]
    rw [zipWith_append_nil acc ss
      (fun s hs => List.length_eq_zero.mp (by simpa using hlen s hs))
      (by omega)]
    simp
  | cons v vts ih =>
    intro ss acc P0 hsl hal hlen
    have hne : ∀ s ∈ ss, s ≠ [] := by
      intro s hs he
      have := hlen s hs
      rw [he] at this
      simp at this
    rw [zipStar_succ ((v :: vts) :: ss) vts.length (by simp) (by
      intro s hs
      rcases List.mem_cons.mp hs with h | h
      · simp [h]
      · simpa using hlen s h)]
    simp only [List.foldl_cons]
    have hhead : ((v :: vts) :: ss).map (fun s => s.headD [])
        = v :: ss.map (fun s => s.headD []) := by simp
    have htails : ((v :: vts) :: ss).map (fun s => s.tail)
        = vts :: ss.map (fun s => s.tail) := by simp
    rw [hhead, htails]
    set hs := ss.map (fun s => s.headD []) with hhs
    have hhslen : hs.length = rattrs.length := by simp [hhs]; omega
    -- the inner fold over the first record
    have hzc : (v :: hs).zip (posA :: rattrs) = (v, posA) :: hs.zip rattrs := rfl
    have hpd0keys : ((rattrs.zip acc).map (fun w => (w.1.semantic, w.2))).map Prod.fst
        = (hs.zip rattrs).map (fun q => q.2.semantic) := by
      rw [pd_keys rattrs acc hal, items_sems rattrs hs hhslen]
    have hitems_np : ∀ q ∈ hs.zip rattrs, q.2.semantic ≠ "POSITION" := by
      intro q hq
      exact hnp q.2 (List.of_mem_zip hq).2
    have hinner : List.foldl routeStep
        (P0, (rattrs.zip acc).map (fun w => (w.1.semantic, w.2)))
        ((v :: hs).zip (posA :: rattrs))
        = (P0 ++ [v],
           (rattrs.zip (List.zipWith (fun a h => a ++ [h]) acc hs)).map
             (fun w => (w.1.semantic, w.2))) := by
      rw [hzc, List.foldl_cons]
      have hr0 : routeStep (P0, (rattrs.zip acc).map (fun w => (w.1.semantic, w.2)))
          (v, posA)
          = (P0 ++ [v], (rattrs.zip acc).map (fun w => (w.1.semantic, w.2))) := by
        simp [routeStep, hpos]
      rw [hr0]
      have := fold_route_update (hs.zip rattrs) []
        ((rattrs.zip acc).map (fun w => (w.1.semantic, w.2))) (P0 ++ [v])
        hitems_np hpd0keys
        (by
          simp only [List.nil_append]
          rw [pd_keys rattrs acc hal]
          exact hnd)
      simp only [List.nil_append] at this
      rw [this, zip_sem_step rattrs acc hs hal hhslen]
    rw [hinner]
    rw [ih (ss.map (fun s => s.tail))
      (List.zipWith (fun a h => a ++ [h]) acc hs) (P0 ++ [v])
      (by simp; omega)
      (by
        rw [List.length_zipWith]
        omega)
      (by
        intro s hsmem
        obtain ⟨t, ht, rfl⟩ := List.mem_map.mp hsmem
        have := hlen t ht
        simp [List.length_tail, this])]
    rw [hhs, zipWith_headD_tail acc ss hne]
    simp

/-- Folding the decoder's routing over all records, starting from the empty
point list and empty `point_data`. -/
theorem fold_records_main (posA : AttributeInput)
    (rattrs : List AttributeInput)
    (hpos : posA.semantic = "POSITION")
    (hnp : ∀ a ∈ rattrs, a.semantic ≠ "POSITION")
    (hnd : (rattrs.map (fun a => a.semantic)).Nodup)
    (vts : List (List Int)) (ss : List (List (List Int)))
    (hvne : vts ≠ []) (hsl : ss.length = rattrs.length)
    (hlen : ∀ s ∈ ss, s.length = vts.length) :
    List.foldl (fun accu r => List.foldl routeStep accu (r.zip (posA :: rattrs)))
        ([], []) (zipStar (vts :: ss))
      = (vts, (rattrs.zip ss).map (fun w => (w.1.semantic, w.2))) := by
  cases vts with
  | nil => exact absurd rfl hvne
  | cons v vts =>
    have hne : ∀ s ∈ ss, s ≠ [] := by
      intro s hs he
      have := hlen s hs
      rw [he] at this
      simp at this
    rw [zipStar_succ ((v :: vts) :: ss) vts.length (by simp) (by
      intro s hs
      rcases List.mem_cons.mp hs with h | h
      · simp [h]
      · simpa using hlen s h)]
    simp only [List.foldl_cons]
    have hhead : ((v :: vts) :: ss).map (fun s => s.headD [])
        = v :: ss.map (fun s => s.headD []) := by simp
    have htails : ((v :: vts) :: ss).map (fun s => s.tail)
        = vts :: ss.map (fun s => s.tail) := by simp
    rw [hhead, htails]
    set hs := ss.map (fun s => s.headD []) with hhs
    have hhslen : hs.length = rattrs.length := by simp [hhs]; omega
    have hzc : (v :: hs).zip (posA :: rattrs) = (v, posA) :: hs.zip rattrs := rfl
    have hitems_np : ∀ q ∈ hs.zip rattrs, q.2.semantic ≠ "POSITION" := by
      intro q hq
      exact hnp q.2 (List.of_mem_zip hq).2
    have hinner : List.foldl routeStep (([] : List (List Int)),
          ([] : List (String × List (List Int))))
        ((v :: hs).zip (posA :: rattrs))
        = ([v],
           (rattrs.zip (hs.map (fun h => [h]))).map
             (fun w => (w.1.semantic, w.2))) := by
      rw [hzc, List.foldl_cons]
      have hr0 : routeStep (([] : List (List Int)),
            ([] : List (String × List (List Int)))) (v, posA)
          = ([v], []) := by
        simp [routeStep, hpos]
      rw [hr0]
      have := fold_route_insert (hs.zip rattrs) [] [v]
        hitems_np
        (by rw [items_sems rattrs hs hhslen]; exact hnd)
        (by simp)
      rw [this, zip_sem_init rattrs hs hhslen]
      simp
    rw [hinner]
    rw [fold_records_general posA rattrs hpos hnp hnd vts
      (ss.map (fun s => s.tail)) (hs.map (fun h => [h])) [v]
      (by simp; omega)
      (by simp; omega)
      (by
        intro s hsmem
        obtain ⟨t, ht, rfl⟩ := List.mem_map.mp hsmem
        have := hlen t ht
        simp [List.length_tail, this])]
    rw [hhs]
    have hzw : List.zipWith (· ++ ·)
        ((ss.map (fun s => s.headD [])).map (fun h => [h]))
        (ss.map (fun s => s.tail)) = ss := by
      have hmm : (ss.map (fun s => s.headD [])).map (fun h => [h])
          = ss.map (fun s => [s.headD []]) := by
        rw [List.map_map]
        rfl
      rw [hmm]
      exact zipWith_singleton_head_tail ss hne
    rw [hzw]
    simp

/-- The round-trip core: decoding the buffer that `build_geometry_buffer`
produces from aligned, in-range streams reconstructs the vertex streams and
the index groups. -/
theorem export_decode_core
    (vertices : List (List Int)) (ss : List (List (List Int)))
    (posA : AttributeInput) (rattrs : List AttributeInput)
    (indices : List (List Int)) (fmt : String)
    (hpos : posA.semantic = "POSITION")
    (hnp : ∀ a ∈ rattrs, a.semantic ≠ "POSITION")
    (hnd : (rattrs.map (fun a => a.semantic)).Nodup)
    (hslen : ss.length = rattrs.length)
    (hvne : vertices ≠ [])
    (hlen : ∀ s ∈ ss, s.length = vertices.length)
    (hvgood : ∀ t ∈ vertices, goodTuple posA t)
    (hsgood : ∀ q ∈ ss.zip rattrs, ∀ t ∈ q.1, goodTuple q.2 t)
    (hstride : 0 < sumSizes (posA :: rattrs))
    (h3 : ∀ g ∈ indices, g.length = 3)
    (hgr : ∀ g ∈ indices, ∀ v ∈ g, inRange (FORMAT_MAP fmt) v) :
    export_mesh_decode
        (((zipStar (vertices :: ss)).map (encodePoint (posA :: rattrs))).flatten
          ++ encodeTuple (FORMAT_MAP fmt) indices.flatten)
        { format := fmt
          count := indices.length * (indices.headD []).length
          offset := (((zipStar (vertices :: ss)).map
            (encodePoint (posA :: rattrs))).flatten).length }
        (posA :: rattrs)
      = some (vertices, indices,
          (rattrs.zip ss).map (fun w => (w.1.semantic, w.2))) := by
  have hdata_len : ∀ s ∈ vertices :: ss, s.length = vertices.length := by
    intro s hs
    rcases List.mem_cons.mp hs with h | h
    · rw [h]
    · exact hlen s h
  have hzs := zipStar_of_len (vertices :: ss) vertices.length (by simp) hdata_len
  have hreclen : (zipStar (vertices :: ss)).length = vertices.length := by
    rw [hzs]; simp
  have hrgood : ∀ r ∈ zipStar (vertices :: ss),
      r.length = (posA :: rattrs).length ∧
      ∀ p ∈ r.zip (posA :: rattrs), goodTuple p.2 p.1 := by
    rw [hzs]
    intro r hr
    obtain ⟨i, hi, rfl⟩ := List.mem_map.mp hr
    have hin : i < vertices.length := List.mem_range.mp hi
    constructor
    · simp [hslen]
    · have hmapcons : (vertices :: ss).map (fun s => s.getD i [])
          = vertices.getD i [] :: ss.map (fun s => s.getD i []) := by simp
      rw [hmapcons]
      intro p hp
      rcases List.mem_cons.mp hp with h | h
      · subst h
        refine hvgood _ ?_
        rw [List.getD_eq_getElem vertices [] hin]
        exact List.getElem_mem hin
      · have h' : p ∈ (ss.map (fun s => s.getD i [])).zip rattrs := h
        rw [List.zip_map_left] at h'
        obtain ⟨⟨s, a⟩, hmem, rfl⟩ := List.mem_map.mp h'
        have hsa := List.of_mem_zip hmem
        have hslen' : s.length = vertices.length := hlen s hsa.1
        simp only [Prod.map, id_eq]
        refine hsgood (s, a) hmem _ ?_
        show s.getD i [] ∈ s
        rw [List.getD_eq_getElem s [] (by omega)]
        exact List.getElem_mem (by omega)
  have hlenmap : ∀ r ∈ zipStar (vertices :: ss),
      (encodePoint (posA :: rattrs) r).length = sumSizes (posA :: rattrs) :=
    fun r hr => encodePoint_length (posA :: rattrs) r (hrgood r hr).1 (hrgood r hr).2
  have hvb : (((zipStar (vertices :: ss)).map
      (encodePoint (posA :: rattrs))).flatten).length
      = vertices.length * sumSizes (posA :: rattrs) := by
    rw [List.length_flatten, List.map_map,
      show (zipStar (vertices :: ss)).map (List.length ∘ encodePoint (posA :: rattrs))
        = (zipStar (vertices :: ss)).map (Function.const _ (sumSizes (posA :: rattrs)))
        from List.map_congr_left (fun r hr => hlenmap r hr),
      List.map_const, List.sum_replicate, smul_eq_mul, hreclen]
  obtain ⟨hfrom, hgrp⟩ := index_decode_of_append (FORMAT_MAP fmt)
    (((zipStar (vertices :: ss)).map (encodePoint (posA :: rattrs))).flatten)
    indices h3 hgr
  have htake : ((((zipStar (vertices :: ss)).map
        (encodePoint (posA :: rattrs))).flatten
      ++ encodeTuple (FORMAT_MAP fmt) indices.flatten).take
        ((((zipStar (vertices :: ss)).map (encodePoint (posA :: rattrs))).flatten).length))
      = ((zipStar (vertices :: ss)).map (encodePoint (posA :: rattrs))).flatten :=
    List.take_left _ _
  have hloop := decodeLoop_records (posA :: rattrs) hstride
    (zipStar (vertices :: ss))
    ((((zipStar (vertices :: ss)).map (encodePoint (posA :: rattrs))).flatten).length + 1)
    (((zipStar (vertices :: ss)).map (encodePoint (posA :: rattrs))).flatten)
    0 [] []
    (by
      rw [hvb, hreclen]
      have := Nat.le_mul_of_pos_right vertices.length hstride
      omega)
    hrgood
    (by rw [List.drop_zero])
  have hfold := fold_records_main posA rattrs hpos hnp hnd vertices ss hvne
    hslen hlen
  simp only [export_mesh_decode, hfrom, htake, hloop, hfold, hgrp]

theorem goodTuple_vec3 (a : AttributeInput) (ha : a.format = "VEC3")
    (t : List Int) (hl : t.length = 3)
    (hr : ∀ x ∈ t, 0 ≤ x ∧ x < 2 ^ 32) : goodTuple a t := by
  unfold goodTuple
  rw [ha, show FORMAT_MAP "VEC3" = Dtype.f32 from rfl,
    show SIZES "VEC3" = 12 from rfl]
  refine ⟨by simp [Dtype.itemsize, hl], ?_⟩
  intro v hv
  simpa [inRange] using hr v hv

theorem goodTuple_tex (a : AttributeInput) (ha : a.format = "U16VEC2")
    (t : List Int) (hl : t.length = 2)
    (hr : ∀ x ∈ t, -(2 ^ 15) ≤ x ∧ x < 2 ^ 15) : goodTuple a t := by
  unfold goodTuple
  rw [ha, show FORMAT_MAP "U16VEC2" = Dtype.i16 from rfl,
    show SIZES "U16VEC2" = 4 from rfl]
  refine ⟨by simp [Dtype.itemsize, hl], ?_⟩
  intro v hv
  have := hr v hv
  simp only [inRange, Dtype.itemsize]
  norm_num
  omega

theorem goodTuple_col (a : AttributeInput) (ha : a.format = "U8VEC4")
    (t : List Int) (hl : t.length = 4)
    (hr : ∀ x ∈ t, -(2 ^ 7) ≤ x ∧ x < 2 ^ 7) : goodTuple a t := by
  unfold goodTuple
  rw [ha, show FORMAT_MAP "U8VEC4" = Dtype.i8 from rfl,
    show SIZES "U8VEC4" = 4 from rfl]
  refine ⟨by simp [Dtype.itemsize, hl], ?_⟩
  intro v hv
  have := hr v hv
  simp only [inRange, Dtype.itemsize]
  norm_num
  omega

/-- C1 (amended): the encode/decode round trip reconstructs the vertex
streams, the per-semantic attribute lists, and the index groups, provided the
inputs respect what the binary formats can carry: all present streams have
the vertex count's length; POSITION/NORMAL/TANGENT tuples have 3 components
(32-bit float patterns); TEXTURE tuples have 2 components in the signed
16-bit range; COLOR tuples have 4 components in the signed 8-bit range;
index groups all have size 3 (the decoder regroups in hardcoded triples) and
index values fit the signed half of the format selected by the vertex count
(the serialization is signed, see C10). -/
theorem encode_decode_roundtrip (input : GeometryPatchInput) (p : GeometryPatch)
    (hp : build_geometry_patch input = some p)
    (hlen_n : input.normals = [] ∨ input.normals.length = input.vertices.length)
    (hlen_t : input.tangents = [] ∨ input.tangents.length = input.vertices.length)
    (hlen_x : input.textures = [] ∨ input.textures.length = input.vertices.length)
    (hlen_c : input.colors = [] ∨ input.colors.length = input.vertices.length)
    (hverts : ∀ t ∈ input.vertices, t.length = 3 ∧ ∀ x ∈ t, 0 ≤ x ∧ x < 2 ^ 32)
    (hnorms : ∀ t ∈ input.normals, t.length = 3 ∧ ∀ x ∈ t, 0 ≤ x ∧ x < 2 ^ 32)
    (htans : ∀ t ∈ input.tangents, t.length = 3 ∧ ∀ x ∈ t, 0 ≤ x ∧ x < 2 ^ 32)
    (htexs : ∀ t ∈ input.textures, t.length = 2 ∧ ∀ x ∈ t, -(2 ^ 15) ≤ x ∧ x < 2 ^ 15)
    (hcols : ∀ t ∈ input.colors, t.length = 4 ∧ ∀ x ∈ t, -(2 ^ 7) ≤ x ∧ x < 2 ^ 7)
    (hidx3 : ∀ g ∈ input.indices, g.length = 3)
    (hidxv : ∀ g ∈ input.indices, ∀ v ∈ g, 0 ≤ v ∧
      v < 2 ^ (8 * (FORMAT_MAP (get_format input.vertices.length)).itemsize - 1)) :
    export_mesh_decode p.buffer p.indices p.attributes
      = some (input.vertices, input.indices, expectedPointData input) := by
  cases hidx : input.indices with
  | nil => simp [build_geometry_patch, hidx] at hp
  | cons g0 rest =>
    simp only [build_geometry_patch, hidx, build_geometry_buffer] at hp
    have hpe := Option.some.inj hp
    subst hpe
    by_cases hv : input.vertices = []
    · have hn : input.normals = [] := by
        rcases hlen_n with h | h
        · exact h
        · rw [hv] at h; exact List.length_eq_zero.mp (by simpa using h)
      have ht : input.tangents = [] := by
        rcases hlen_t with h | h
        · exact h
        · rw [hv] at h; exact List.length_eq_zero.mp (by simpa using h)
      have hx : input.textures = [] := by
        rcases hlen_x with h | h
        · exact h
        · rw [hv] at h; exact List.length_eq_zero.mp (by simpa using h)
      have hc : input.colors = [] := by
        rcases hlen_c with h | h
        · exact h
        · rw [hv] at h; exact List.length_eq_zero.mp (by simpa using h)
      have hpres : presentData input = [] := by
        simp [presentData, hv, hn, ht, hx, hc]
      have hvs : vertexSection input (set_up_attributes input) = [] := by
        simp [vertexSection, hpres, zipStar]
      have hgr : ∀ g ∈ (g0 :: rest), ∀ v ∈ g,
          inRange (FORMAT_MAP (get_format input.vertices.length)) v := by
        intro g hg v hv'
        have := (hidx ▸ hidxv) g hg v hv'
        exact inRange_of_index_bound input.vertices.length v this.1 this.2
      obtain ⟨hfrom, hgrp⟩ := index_decode_of_append
        (FORMAT_MAP (get_format input.vertices.length)) [] (g0 :: rest)
        (hidx ▸ hidx3) hgr
      have hexp : expectedPointData input = [] := by
        simp [expectedPointData, hn, ht, hx, hc]
      rw [hexp, hvs, hv]
      rw [hv] at hfrom
      simp only [indexSection, hidx]
      simp only [export_mesh_decode, List.length_nil, List.headD_cons,
        encodeTuple] at hfrom ⊢
      rw [hfrom]
      simp only [List.flatten_cons] at hgrp
      simp [decodeLoop, hgrp]
    · by_cases hn : input.normals = [] <;> by_cases ht : input.tangents = [] <;>
        by_cases hx : input.textures = [] <;> by_cases hc : input.colors = []
      · -- present: none
        have hattrs : set_up_attributes input =
            { semantic := "POSITION", format := "VEC3", normalized := false, offset := 0, stride := 12 } ::
            [] := by
          simp only [set_up_attributes, hn, ht, hx, hc]
          decide
        have hdata : presentData input = input.vertices :: [] := by
          simp [presentData, hv, hn, ht, hx, hc]
        have hexp : expectedPointData input = [] := by
          simp [expectedPointData, hn, ht, hx, hc]
        have hcore := export_decode_core input.vertices []
          ({ semantic := "POSITION", format := "VEC3", normalized := false, offset := 0, stride := 12 })
          []
          (g0 :: rest) (get_format input.vertices.length)
          rfl (by decide) (by decide) rfl hv
          (by intro s hs; simp at hs)
          (by
            intro t ht'
            exact goodTuple_vec3 _ rfl t (hverts t ht').1 (hverts t ht').2)
          (by intro q hq; simp at hq)
          (by decide)
          (hidx ▸ hidx3)
          (by
            intro g hg v hv'
            have := (hidx ▸ hidxv) g hg v hv'
            exact inRange_of_index_bound input.vertices.length v this.1 this.2)
        simp only [List.zip_cons_cons, List.zip_nil_left, List.map_cons,
          List.map_nil] at hcore
        rw [hexp]
        simp only [vertexSection, indexSection, hattrs, hdata, hidx]
        exact hcore
      · -- present: colors
        have hattrs : set_up_attributes input =
            { semantic := "POSITION", format := "VEC3", normalized := false, offset := 0, stride := 16 } ::
            [{ semantic := "COLOR", format := "U8VEC4", normalized := true, offset := 12, stride := 16 }] := by
          simp only [set_up_attributes, hn, ht, hx, hc]
          decide
        have hdata : presentData input = input.vertices :: [input.colors] := by
          simp [presentData, hv, hn, ht, hx, hc]
        have hexp : expectedPointData input = [("COLOR", input.colors)] := by
          simp [expectedPointData, hn, ht, hx, hc]
        have hcore := export_decode_core input.vertices [input.colors]
          ({ semantic := "POSITION", format := "VEC3", normalized := false, offset := 0, stride := 16 })
          [{ semantic := "COLOR", format := "U8VEC4", normalized := true, offset := 12, stride := 16 }]
          (g0 :: rest) (get_format input.vertices.length)
          rfl (by decide) (by decide) rfl hv
          (by
            intro s hs
            simp only [List.mem_cons, List.not_mem_nil, or_false] at hs
            rcases hs with rfl
            · rcases hlen_c with h | h
              · exact absurd h hc
              · exact h
            )
          (by
            intro t ht'
            exact goodTuple_vec3 _ rfl t (hverts t ht').1 (hverts t ht').2)
          (by
            intro q hq
            simp only [List.zip_cons_cons, List.zip_nil_left, List.mem_cons,
              List.not_mem_nil, or_false] at hq
            rcases hq with rfl
            · intro t ht'
              exact goodTuple_col _ rfl t (hcols t ht').1 (hcols t ht').2
            )
          (by decide)
          (hidx ▸ hidx3)
          (by
            intro g hg v hv'
            have := (hidx ▸ hidxv) g hg v hv'
            exact inRange_of_index_bound input.vertices.length v this.1 this.2)
        simp only [List.zip_cons_cons, List.zip_nil_left, List.map_cons,
          List.map_nil] at hcore
        rw [hexp]
        simp only [vertexSection, indexSection, hattrs, hdata, hidx]
        exact hcore
      · -- present: textures
        have hattrs : set_up_attributes input =
            { semantic := "POSITION", format := "VEC3", normalized := false, offset := 0, stride := 16 } ::
            [{ semantic := "TEXTURE", format := "U16VEC2", normalized := true, offset := 12, stride := 16 }] := by
          simp only [set_up_attributes, hn, ht, hx, hc]
          decide
        have hdata : presentData input = input.vertices :: [input.textures] := by
          simp [presentData, hv, hn, ht, hx, hc]
        have hexp : expectedPointData input = [("TEXTURE", input.textures)] := by
          simp [expectedPointData, hn, ht, hx, hc]
        have hcore := export_decode_core input.vertices [input.textures]
          ({ semantic := "POSITION", format := "VEC3", normalized := false, offset := 0, stride := 16 })
          [{ semantic := "TEXTURE", format := "U16VEC2", normalized := true, offset := 12, stride := 16 }]
          (g0 :: rest) (get_format input.vertices.length)
          rfl (by decide) (by decide) rfl hv
          (by
            intro s hs
            simp only [List.mem_cons, List.not_mem_nil, or_false] at hs
            rcases hs with rfl
            · rcases hlen_x with h | h
              · exact absurd h hx
              · exact h
            )
          (by
            intro t ht'
            exact goodTuple_vec3 _ rfl t (hverts t ht').1 (hverts t ht').2)
          (by
            intro q hq
            simp only [List.zip_cons_cons, List.zip_nil_left, List.mem_cons,
              List.not_mem_nil, or_false] at hq
            rcases hq with rfl
            · intro t ht'
              exact goodTuple_tex _ rfl t (htexs t ht').1 (htexs t ht').2
            )
          (by decide)
          (hidx ▸ hidx3)
          (by
            intro g hg v hv'
            have := (hidx ▸ hidxv) g hg v hv'
            exact inRange_of_index_bound input.vertices.length v this.1 this.2)
        simp only [List.zip_cons_cons, List.zip_nil_left, List.map_cons,
          List.map_nil] at hcore
        rw [hexp]
        simp only [vertexSection, indexSection, hattrs, hdata, hidx]
        exact hcore
      · -- present: textures, colors
        have hattrs : set_up_attributes input =
            { semantic := "POSITION", format := "VEC3", normalized := false, offset := 0, stride := 20 } ::
            [{ semantic := "TEXTURE", format := "U16VEC2", normalized := true, offset := 12, stride := 20 },
           { semantic := "COLOR", format := "U8VEC4", normalized := true, offset := 16, stride := 20 }] := by
          simp only [set_up_attributes, hn, ht, hx, hc]
          decide
        have hdata : presentData input = input.vertices :: [input.textures, input.colors] := by
          simp [presentData, hv, hn, ht, hx, hc]
        have hexp : expectedPointData input = [("TEXTURE", input.textures), ("COLOR", input.colors)] := by
          simp [expectedPointData, hn, ht, hx, hc]
        have hcore := export_decode_core input.vertices [input.textures, input.colors]
          ({ semantic := "POSITION", format := "VEC3", normalized := false, offset := 0, stride := 20 })
          [{ semantic := "TEXTURE", format := "U16VEC2", normalized := true, offset := 12, stride := 20 },
           { semantic := "COLOR", format := "U8VEC4", normalized := true, offset := 16, stride := 20 }]
          (g0 :: rest) (get_format input.vertices.length)
          rfl (by decide) (by decide) rfl hv
          (by
            intro s hs
            simp only [List.mem_cons, List.not_mem_nil, or_false] at hs
            rcases hs with rfl | rfl
            · rcases hlen_x with h | h
              · exact absurd h hx
              · exact h
            · rcases hlen_c with h | h
              · exact absurd h hc
              · exact h
            )
          (by
            intro t ht'
            exact goodTuple_vec3 _ rfl t (hverts t ht').1 (hverts t ht').2)
          (by
            intro q hq
            simp only [List.zip_cons_cons, List.zip_nil_left, List.mem_cons,
              List.not_mem_nil, or_false] at hq
            rcases hq with rfl | rfl
            · intro t ht'
              exact goodTuple_tex _ rfl t (htexs t ht').1 (htexs t ht').2
            · intro t ht'
              exact goodTuple_col _ rfl t (hcols t ht').1 (hcols t ht').2
            )
          (by decide)
          (hidx ▸ hidx3)
          (by
            intro g hg v hv'
            have := (hidx ▸ hidxv) g hg v hv'
            exact inRange_of_index_bound input.vertices.length v this.1 this.2)
        simp only [List.zip_cons_cons, List.zip_nil_left, List.map_cons,
          List.map_nil] at hcore
        rw [hexp]
        simp only [vertexSection, indexSection, hattrs, hdata, hidx]
        exact hcore
      · -- present: tangents
        have hattrs : set_up_attributes input =
            { semantic := "POSITION", format := "VEC3", normalized := false, offset := 0, stride := 24 } ::
            [{ semantic := "TANGENT", format := "VEC3", normalized := false, offset := 12, stride := 24 }] := by
          simp only [set_up_attributes, hn, ht, hx, hc]
          decide
        have hdata : presentData input = input.vertices :: [input.tangents] := by
          simp [presentData, hv, hn, ht, hx, hc]
        have hexp : expectedPointData input = [("TANGENT", input.tangents)] := by
          simp [expectedPointData, hn, ht, hx, hc]
        have hcore := export_decode_core input.vertices [input.tangents]
          ({ semantic := "POSITION", format := "VEC3", normalized := false, offset := 0, stride := 24 })
          [{ semantic := "TANGENT", format := "VEC3", normalized := false, offset := 12, stride := 24 }]
          (g0 :: rest) (get_format input.vertices.length)
          rfl (by decide) (by decide) rfl hv
          (by
            intro s hs
            simp only [List.mem_cons, List.not_mem_nil, or_false] at hs
            rcases hs with rfl
            · rcases hlen_t with h | h
              · exact absurd h ht
              · exact h
            )
          (by
            intro t ht'
            exact goodTuple_vec3 _ rfl t (hverts t ht').1 (hverts t ht').2)
          (by
            intro q hq
            simp only [List.zip_cons_cons, List.zip_nil_left, List.mem_cons,
              List.not_mem_nil, or_false] at hq
            rcases hq with rfl
            · intro t ht'
              exact goodTuple_vec3 _ rfl t (htans t ht').1 (htans t ht').2
            )
          (by decide)
          (hidx ▸ hidx3)
          (by
            intro g hg v hv'
            have := (hidx ▸ hidxv) g hg v hv'
            exact inRange_of_index_bound input.vertices.length v this.1 this.2)
        simp only [List.zip_cons_cons, List.zip_nil_left, List.map_cons,
          List.map_nil] at hcore
        rw [hexp]
        simp only [vertexSection, indexSection, hattrs, hdata, hidx]
        exact hcore
      · -- present: tangents, colors
        have hattrs : set_up_attributes input =
            { semantic := "POSITION", format := "VEC3", normalized := false, offset := 0, stride := 28 } ::
            [{ semantic := "TANGENT", format := "VEC3", normalized := false, offset := 12, stride := 28 },
           { semantic := "COLOR", format := "U8VEC4", normalized := true, offset := 24, stride := 28 }] := by
          simp only [set_up_attributes, hn, ht, hx, hc]
          decide
        have hdata : presentData input = input.vertices :: [input.tangents, input.colors] := by
          simp [presentData, hv, hn, ht, hx, hc]
        have hexp : expectedPointData input = [("TANGENT", input.tangents), ("COLOR", input.colors)] := by
          simp [expectedPointData, hn, ht, hx, hc]
        have hcore := export_decode_core input.vertices [input.tangents, input.colors]
          ({ semantic := "POSITION", format := "VEC3", normalized := false, offset := 0, stride := 28 })
          [{ semantic := "TANGENT", format := "VEC3", normalized := false, offset := 12, stride := 28 },
           { semantic := "COLOR", format := "U8VEC4", normalized := true, offset := 24, stride := 28 }]
          (g0 :: rest) (get_format input.vertices.length)
          rfl (by decide) (by decide) rfl hv
          (by
            intro s hs
            simp only [List.mem_cons, List.not_mem_nil, or_false] at hs
            rcases hs with rfl | rfl
            · rcases hlen_t with h | h
              · exact absurd h ht
              · exact h
            · rcases hlen_c with h | h
              · exact absurd h hc
              · exact h
            )
          (by
            intro t ht'
            exact goodTuple_vec3 _ rfl t (hverts t ht').1 (hverts t ht').2)
          (by
            intro q hq
            simp only [List.zip_cons_cons, List.zip_nil_left, List.mem_cons,
              List.not_mem_nil, or_false] at hq
            rcases hq with rfl | rfl
            · intro t ht'
              exact goodTuple_vec3 _ rfl t (htans t ht').1 (htans t ht').2
            · intro t ht'
              exact goodTuple_col _ rfl t (hcols t ht').1 (hcols t ht').2
            )
          (by decide)
          (hidx ▸ hidx3)
          (by
            intro g hg v hv'
            have := (hidx ▸ hidxv) g hg v hv'
            exact inRange_of_index_bound input.vertices.length v this.1 this.2)
        simp only [List.zip_cons_cons, List.zip_nil_left, List.map_cons,
          List.map_nil] at hcore
        rw [hexp]
        simp only [vertexSection, indexSection, hattrs, hdata, hidx]
        exact hcore
      · -- present: tangents, textures
        have hattrs : set_up_attributes input =
            { semantic := "POSITION", format := "VEC3", normalized := false, offset := 0, stride := 28 } ::
            [{ semantic := "TANGENT", format := "VEC3", normalized := false, offset := 12, stride := 28 },
           { semantic := "TEXTURE", format := "U16VEC2", normalized := true, offset := 24, stride := 28 }] := by
          simp only [set_up_attributes, hn, ht, hx, hc]
          decide
        have hdata : presentData input = input.vertices :: [input.tangents, input.textures] := by
          simp [presentData, hv, hn, ht, hx, hc]
        have hexp : expectedPointData input = [("TANGENT", input.tangents), ("TEXTURE", input.textures)] := by
          simp [expectedPointData, hn, ht, hx, hc]
        have hcore := export_decode_core input.vertices [input.tangents, input.textures]
          ({ semantic := "POSITION", format := "VEC3", normalized := false, offset := 0, stride := 28 })
          [{ semantic := "TANGENT", format := "VEC3", normalized := false, offset := 12, stride := 28 },
           { semantic := "TEXTURE", format := "U16VEC2", normalized := true, offset := 24, stride := 28 }]
          (g0 :: rest) (get_format input.vertices.length)
          rfl (by decide) (by decide) rfl hv
          (by
            intro s hs
            simp only [List.mem_cons, List.not_mem_nil, or_false] at hs
            rcases hs with rfl | rfl
            · rcases hlen_t with h | h
              · exact absurd h ht
              · exact h
            · rcases hlen_x with h | h
              · exact absurd h hx
              · exact h
            )
          (by
            intro t ht'
            exact goodTuple_vec3 _ rfl t (hverts t ht').1 (hverts t ht').2)
          (by
            intro q hq
            simp only [List.zip_cons_cons, List.zip_nil_left, List.mem_cons,
              List.not_mem_nil, or_false] at hq
            rcases hq with rfl | rfl
            · intro t ht'
              exact goodTuple_vec3 _ rfl t (htans t ht').1 (htans t ht').2
            · intro t ht'
              exact goodTuple_tex _ rfl t (htexs t ht').1 (htexs t ht').2
            )
          (by decide)
          (hidx ▸ hidx3)
          (by
            intro g hg v hv'
            have := (hidx ▸ hidxv) g hg v hv'
            exact inRange_of_index_bound input.vertices.length v this.1 this.2)
        simp only [List.zip_cons_cons, List.zip_nil_left, List.map_cons,
          List.map_nil] at hcore
        rw [hexp]
        simp only [vertexSection, indexSection, hattrs, hdata, hidx]
        exact hcore
      · -- present: tangents, textures, colors
        have hattrs : set_up_attributes input =
            { semantic := "POSITION", format := "VEC3", normalized := false, offset := 0, stride := 32 } ::
            [{ semantic := "TANGENT", format := "VEC3", normalized := false, offset := 12, stride := 32 },
           { semantic := "TEXTURE", format := "U16VEC2", normalized := true, offset := 24, stride := 32 },
           { semantic := "COLOR", format := "U8VEC4", normalized := true, offset := 28, stride := 32 }] := by
          simp only [set_up_attributes, hn, ht, hx, hc]
          decide
        have hdata : presentData input = input.vertices :: [input.tangents, input.textures, input.colors] := by
          simp [presentData, hv, hn, ht, hx, hc]
        have hexp : expectedPointData input = [("TANGENT", input.tangents), ("TEXTURE", input.textures), ("COLOR", input.colors)] := by
          simp [expectedPointData, hn, ht, hx, hc]
        have hcore := export_decode_core input.vertices [input.tangents, input.textures, input.colors]
          ({ semantic := "POSITION", format := "VEC3", normalized := false, offset := 0, stride := 32 })
          [{ semantic := "TANGENT", format := "VEC3", normalized := false, offset := 12, stride := 32 },
           { semantic := "TEXTURE", format := "U16VEC2", normalized := true, offset := 24, stride := 32 },
           { semantic := "COLOR", format := "U8VEC4", normalized := true, offset := 28, stride := 32 }]
          (g0 :: rest) (get_format input.vertices.length)
          rfl (by decide) (by decide) rfl hv
          (by
            intro s hs
            simp only [List.mem_cons, List.not_mem_nil, or_false] at hs
            rcases hs with rfl | rfl | rfl
            · rcases hlen_t with h | h
              · exact absurd h ht
              · exact h
            · rcases hlen_x with h | h
              · exact absurd h hx
              · exact h
            · rcases hlen_c with h | h
              · exact absurd h hc
              · exact h
            )
          (by
            intro t ht'
            exact goodTuple_vec3 _ rfl t (hverts t ht').1 (hverts t ht').2)
          (by
            intro q hq
            simp only [List.zip_cons_cons, List.zip_nil_left, List.mem_cons,
              List.not_mem_nil, or_false] at hq
            rcases hq with rfl | rfl | rfl
            · intro t ht'
              exact goodTuple_vec3 _ rfl t (htans t ht').1 (htans t ht').2
            · intro t ht'
              exact goodTuple_tex _ rfl t (htexs t ht').1 (htexs t ht').2
            · intro t ht'
              exact goodTuple_col _ rfl t (hcols t ht').1 (hcols t ht').2
            )
          (by decide)
          (hidx ▸ hidx3)
          (by
            intro g hg v hv'
            have := (hidx ▸ hidxv) g hg v hv'
            exact inRange_of_index_bound input.vertices.length v this.1 this.2)
        simp only [List.zip_cons_cons, List.zip_nil_left, List.map_cons,
          List.map_nil] at hcore
        rw [hexp]
        simp only [vertexSection, indexSection, hattrs, hdata, hidx]
        exact hcore
      · -- present: normals
        have hattrs : set_up_attributes input =
            { semantic := "POSITION", format := "VEC3", normalized := false, offset := 0, stride := 24 } ::
            [{ semantic := "NORMAL", format := "VEC3", normalized := false, offset := 12, stride := 24 }] := by
          simp only [set_up_attributes, hn, ht, hx, hc]
          decide
        have hdata : presentData input = input.vertices :: [input.normals] := by
          simp [presentData, hv, hn, ht, hx, hc]
        have hexp : expectedPointData input = [("NORMAL", input.normals)] := by
          simp [expectedPointData, hn, ht, hx, hc]
        have hcore := export_decode_core input.vertices [input.normals]
          ({ semantic := "POSITION", format := "VEC3", normalized := false, offset := 0, stride := 24 })
          [{ semantic := "NORMAL", format := "VEC3", normalized := false, offset := 12, stride := 24 }]
          (g0 :: rest) (get_format input.vertices.length)
          rfl (by decide) (by decide) rfl hv
          (by
            intro s hs
            simp only [List.mem_cons, List.not_mem_nil, or_false] at hs
            rcases hs with rfl
            · rcases hlen_n with h | h
              · exact absurd h hn
              · exact h
            )
          (by
            intro t ht'
            exact goodTuple_vec3 _ rfl t (hverts t ht').1 (hverts t ht').2)
          (by
            intro q hq
            simp only [List.zip_cons_cons, List.zip_nil_left, List.mem_cons,
              List.not_mem_nil, or_false] at hq
            rcases hq with rfl
            · intro t ht'
              exact goodTuple_vec3 _ rfl t (hnorms t ht').1 (hnorms t ht').2
            )
          (by decide)
          (hidx ▸ hidx3)
          (by
            intro g hg v hv'
            have := (hidx ▸ hidxv) g hg v hv'
            exact inRange_of_index_bound input.vertices.length v this.1 this.2)
        simp only [List.zip_cons_cons, List.zip_nil_left, List.map_cons,
          List.map_nil] at hcore
        rw [hexp]
        simp only [vertexSection, indexSection, hattrs, hdata, hidx]
        exact hcore
      · -- present: normals, colors
        have hattrs : set_up_attributes input =
            { semantic := "POSITION", format := "VEC3", normalized := false, offset := 0, stride := 28 } ::
            [{ semantic := "NORMAL", format := "VEC3", normalized := false, offset := 12, stride := 28 },
           { semantic := "COLOR", format := "U8VEC4", normalized := true, offset := 24, stride := 28 }] := by
          simp only [set_up_attributes, hn, ht, hx, hc]
          decide
        have hdata : presentData input = input.vertices :: [input.normals, input.colors] := by
          simp [presentData, hv, hn, ht, hx, hc]
        have hexp : expectedPointData input = [("NORMAL", input.normals), ("COLOR", input.colors)] := by
          simp [expectedPointData, hn, ht, hx, hc]
        have hcore := export_decode_core input.vertices [input.normals, input.colors]
          ({ semantic := "POSITION", format := "VEC3", normalized := false, offset := 0, stride := 28 })
          [{ semantic := "NORMAL", format := "VEC3", normalized := false, offset := 12, stride := 28 },
           { semantic := "COLOR", format := "U8VEC4", normalized := true, offset := 24, stride := 28 }]
          (g0 :: rest) (get_format input.vertices.length)
          rfl (by decide) (by decide) rfl hv
          (by
            intro s hs
            simp only [List.mem_cons, List.not_mem_nil, or_false] at hs
            rcases hs with rfl | rfl
            · rcases hlen_n with h | h
              · exact absurd h hn
              · exact h
            · rcases hlen_c with h | h
              · exact absurd h hc
              · exact h
            )
          (by
            intro t ht'
            exact goodTuple_vec3 _ rfl t (hverts t ht').1 (hverts t ht').2)
          (by
            intro q hq
            simp only [List.zip_cons_cons, List.zip_nil_left, List.mem_cons,
              List.not_mem_nil, or_false] at hq
            rcases hq with rfl | rfl
            · intro t ht'
              exact goodTuple_vec3 _ rfl t (hnorms t ht').1 (hnorms t ht').2
            · intro t ht'
              exact goodTuple_col _ rfl t (hcols t ht').1 (hcols t ht').2
            )
          (by decide)
          (hidx ▸ hidx3)
          (by
            intro g hg v hv'
            have := (hidx ▸ hidxv) g hg v hv'
            exact inRange_of_index_bound input.vertices.length v this.1 this.2)
        simp only [List.zip_cons_cons, List.zip_nil_left, List.map_cons,
          List.map_nil] at hcore
        rw [hexp]
        simp only [vertexSection, indexSection, hattrs, hdata, hidx]
        exact hcore
      · -- present: normals, textures
        have hattrs : set_up_attributes input =
            { semantic := "POSITION", format := "VEC3", normalized := false, offset := 0, stride := 28 } ::
            [{ semantic := "NORMAL", format := "VEC3", normalized := false, offset := 12, stride := 28 },
           { semantic := "TEXTURE", format := "U16VEC2", normalized := true, offset := 24, stride := 28 }] := by
          simp only [set_up_attributes, hn, ht, hx, hc]
          decide
        have hdata : presentData input = input.vertices :: [input.normals, input.textures] := by
          simp [presentData, hv, hn, ht, hx, hc]
        have hexp : expectedPointData input = [("NORMAL", input.normals), ("TEXTURE", input.textures)] := by
          simp [expectedPointData, hn, ht, hx, hc]
        have hcore := export_decode_core input.vertices [input.normals, input.textures]
          ({ semantic := "POSITION", format := "VEC3", normalized := false, offset := 0, stride := 28 })
          [{ semantic := "NORMAL", format := "VEC3", normalized := false, offset := 12, stride := 28 },
           { semantic := "TEXTURE", format := "U16VEC2", normalized := true, offset := 24, stride := 28 }]
          (g0 :: rest) (get_format input.vertices.length)
          rfl (by decide) (by decide) rfl hv
          (by
            intro s hs
            simp only [List.mem_cons, List.not_mem_nil, or_false] at hs
            rcases hs with rfl | rfl
            · rcases hlen_n with h | h
              · exact absurd h hn
              · exact h
            · rcases hlen_x with h | h
              · exact absurd h hx
              · exact h
            )
          (by
            intro t ht'
            exact goodTuple_vec3 _ rfl t (hverts t ht').1 (hverts t ht').2)
          (by
            intro q hq
            simp only [List.zip_cons_cons, List.zip_nil_left, List.mem_cons,
              List.not_mem_nil, or_false] at hq
            rcases hq with rfl | rfl
            · intro t ht'
              exact goodTuple_vec3 _ rfl t (hnorms t ht').1 (hnorms t ht').2
            · intro t ht'
              exact goodTuple_tex _ rfl t (htexs t ht').1 (htexs t ht').2
            )
          (by decide)
          (hidx ▸ hidx3)
          (by
            intro g hg v hv'
            have := (hidx ▸ hidxv) g hg v hv'
            exact inRange_of_index_bound input.vertices.length v this.1 this.2)
        simp only [List.zip_cons_cons, List.zip_nil_left, List.map_cons,
          List.map_nil] at hcore
        rw [hexp]
        simp only [vertexSection, indexSection, hattrs, hdata, hidx]
        exact hcore
      · -- present: normals, textures, colors
        have hattrs : set_up_attributes input =
            { semantic := "POSITION", format := "VEC3", normalized := false, offset := 0, stride := 32 } ::
            [{ semantic := "NORMAL", format := "VEC3", normalized := false, offset := 12, stride := 32 },
           { semantic := "TEXTURE", format := "U16VEC2", normalized := true, offset := 24, stride := 32 },
           { semantic := "COLOR", format := "U8VEC4", normalized := true, offset := 28, stride := 32 }] := by
          simp only [set_up_attributes, hn, ht, hx, hc]
          decide
        have hdata : presentData input = input.vertices :: [input.normals, input.textures, input.colors] := by
          simp [presentData, hv, hn, ht, hx, hc]
        have hexp : expectedPointData input = [("NORMAL", input.normals), ("TEXTURE", input.textures), ("COLOR", input.colors)] := by
          simp [expectedPointData, hn, ht, hx, hc]
        have hcore := export_decode_core input.vertices [input.normals, input.textures, input.colors]
          ({ semantic := "POSITION", format := "VEC3", normalized := false, offset := 0, stride := 32 })
          [{ semantic := "NORMAL", format := "VEC3", normalized := false, offset := 12, stride := 32 },
           { semantic := "TEXTURE", format := "U16VEC2", normalized := true, offset := 24, stride := 32 },
           { semantic := "COLOR", format := "U8VEC4", normalized := true, offset := 28, stride := 32 }]
          (g0 :: rest) (get_format input.vertices.length)
          rfl (by decide) (by decide) rfl hv
          (by
            intro s hs
            simp only [List.mem_cons, List.not_mem_nil, or_false] at hs
            rcases hs with rfl | rfl | rfl
            · rcases hlen_n with h | h
              · exact absurd h hn
              · exact h
            · rcases hlen_x with h | h
              · exact absurd h hx
              · exact h
            · rcases hlen_c with h | h
              · exact absurd h hc
              · exact h
            )
          (by
            intro t ht'
            exact goodTuple_vec3 _ rfl t (hverts t ht').1 (hverts t ht').2)
          (by
            intro q hq
            simp only [List.zip_cons_cons, List.zip_nil_left, List.mem_cons,
              List.not_mem_nil, or_false] at hq
            rcases hq with rfl | rfl | rfl
            · intro t ht'
              exact goodTuple_vec3 _ rfl t (hnorms t ht').1 (hnorms t ht').2
            · intro t ht'
              exact goodTuple_tex _ rfl t (htexs t ht').1 (htexs t ht').2
            · intro t ht'
              exact goodTuple_col _ rfl t (hcols t ht').1 (hcols t ht').2
            )
          (by decide)
          (hidx ▸ hidx3)
          (by
            intro g hg v hv'
            have := (hidx ▸ hidxv) g hg v hv'
            exact inRange_of_index_bound input.vertices.length v this.1 this.2)
        simp only [List.zip_cons_cons, List.zip_nil_left, List.map_cons,
          List.map_nil] at hcore
        rw [hexp]
        simp only [vertexSection, indexSection, hattrs, hdata, hidx]
        exact hcore
      · -- present: normals, tangents
        have hattrs : set_up_attributes input =
            { semantic := "POSITION", format := "VEC3", normalized := false, offset := 0, stride := 36 } ::
            [{ semantic := "NORMAL", format := "VEC3", normalized := false, offset := 12, stride := 36 },
           { semantic := "TANGENT", format := "VEC3", normalized := false, offset := 24, stride := 36 }] := by
          simp only [set_up_attributes, hn, ht, hx, hc]
          decide
        have hdata : presentData input = input.vertices :: [input.normals, input.tangents] := by
          simp [presentData, hv, hn, ht, hx, hc]
        have hexp : expectedPointData input = [("NORMAL", input.normals), ("TANGENT", input.tangents)] := by
          simp [expectedPointData, hn, ht, hx, hc]
        have hcore := export_decode_core input.vertices [input.normals, input.tangents]
          ({ semantic := "POSITION", format := "VEC3", normalized := false, offset := 0, stride := 36 })
          [{ semantic := "NORMAL", format := "VEC3", normalized := false, offset := 12, stride := 36 },
           { semantic := "TANGENT", format := "VEC3", normalized := false, offset := 24, stride := 36 }]
          (g0 :: rest) (get_format input.vertices.length)
          rfl (by decide) (by decide) rfl hv
          (by
            intro s hs
            simp only [List.mem_cons, List.not_mem_nil, or_false] at hs
            rcases hs with rfl | rfl
            · rcases hlen_n with h | h
              · exact absurd h hn
              · exact h
            · rcases hlen_t with h | h
              · exact absurd h ht
              · exact h
            )
          (by
            intro t ht'
            exact goodTuple_vec3 _ rfl t (hverts t ht').1 (hverts t ht').2)
          (by
            intro q hq
            simp only [List.zip_cons_cons, List.zip_nil_left, List.mem_cons,
              List.not_mem_nil, or_false] at hq
            rcases hq with rfl | rfl
            · intro t ht'
              exact goodTuple_vec3 _ rfl t (hnorms t ht').1 (hnorms t ht').2
            · intro t ht'
              exact goodTuple_vec3 _ rfl t (htans t ht').1 (htans t ht').2
            )
          (by decide)
          (hidx ▸ hidx3)
          (by
            intro g hg v hv'
            have := (hidx ▸ hidxv) g hg v hv'
            exact inRange_of_index_bound input.vertices.length v this.1 this.2)
        simp only [List.zip_cons_cons, List.zip_nil_left, List.map_cons,
          List.map_nil] at hcore
        rw [hexp]
        simp only [vertexSection, indexSection, hattrs, hdata, hidx]
        exact hcore
      · -- present: normals, tangents, colors
        have hattrs : set_up_attributes input =
            { semantic := "POSITION", format := "VEC3", normalized := false, offset := 0, stride := 40 } ::
            [{ semantic := "NORMAL", format := "VEC3", normalized := false, offset := 12, stride := 40 },
           { semantic := "TANGENT", format := "VEC3", normalized := false, offset := 24, stride := 40 },
           { semantic := "COLOR", format := "U8VEC4", normalized := true, offset := 36, stride := 40 }] := by
          simp only [set_up_attributes, hn, ht, hx, hc]
          decide
        have hdata : presentData input = input.vertices :: [input.normals, input.tangents, input.colors] := by
          simp [presentData, hv, hn, ht, hx, hc]
        have hexp : expectedPointData input = [("NORMAL", input.normals), ("TANGENT", input.tangents), ("COLOR", input.colors)] := by
          simp [expectedPointData, hn, ht, hx, hc]
        have hcore := export_decode_core input.vertices [input.normals, input.tangents, input.colors]
          ({ semantic := "POSITION", format := "VEC3", normalized := false, offset := 0, stride := 40 })
          [{ semantic := "NORMAL", format := "VEC3", normalized := false, offset := 12, stride := 40 },
           { semantic := "TANGENT", format := "VEC3", normalized := false, offset := 24, stride := 40 },
           { semantic := "COLOR", format := "U8VEC4", normalized := true, offset := 36, stride := 40 }]
          (g0 :: rest) (get_format input.vertices.length)
          rfl (by decide) (by decide) rfl hv
          (by
            intro s hs
            simp only [List.mem_cons, List.not_mem_nil, or_false] at hs
            rcases hs with rfl | rfl | rfl
            · rcases hlen_n with h | h
              · exact absurd h hn
              · exact h
            · rcases hlen_t with h | h
              · exact absurd h ht
              · exact h
            · rcases hlen_c with h | h
              · exact absurd h hc
              · exact h
            )
          (by
            intro t ht'
            exact goodTuple_vec3 _ rfl t (hverts t ht').1 (hverts t ht').2)
          (by
            intro q hq
            simp only [List.zip_cons_cons, List.zip_nil_left, List.mem_cons,
              List.not_mem_nil, or_false] at hq
            rcases hq with rfl | rfl | rfl
            · intro t ht'
              exact goodTuple_vec3 _ rfl t (hnorms t ht').1 (hnorms t ht').2
            · intro t ht'
              exact goodTuple_vec3 _ rfl t (htans t ht').1 (htans t ht').2
            · intro t ht'
              exact goodTuple_col _ rfl t (hcols t ht').1 (hcols t ht').2
            )
          (by decide)
          (hidx ▸ hidx3)
          (by
            intro g hg v hv'
            have := (hidx ▸ hidxv) g hg v hv'
            exact inRange_of_index_bound input.vertices.length v this.1 this.2)
        simp only [List.zip_cons_cons, List.zip_nil_left, List.map_cons,
          List.map_nil] at hcore
        rw [hexp]
        simp only [vertexSection, indexSection, hattrs, hdata, hidx]
        exact hcore
      · -- present: normals, tangents, textures
        have hattrs : set_up_attributes input =
            { semantic := "POSITION", format := "VEC3", normalized := false, offset := 0, stride := 40 } ::
            [{ semantic := "NORMAL", format := "VEC3", normalized := false, offset := 12, stride := 40 },
           { semantic := "TANGENT", format := "VEC3", normalized := false, offset := 24, stride := 40 },
           { semantic := "TEXTURE", format := "U16VEC2", normalized := true, offset := 36, stride := 40 }] := by
          simp only [set_up_attributes, hn, ht, hx, hc]
          decide
        have hdata : presentData input = input.vertices :: [input.normals, input.tangents, input.textures] := by
          simp [presentData, hv, hn, ht, hx, hc]
        have hexp : expectedPointData input = [("NORMAL", input.normals), ("TANGENT", input.tangents), ("TEXTURE", input.textures)] := by
          simp [expectedPointData, hn, ht, hx, hc]
        have hcore := export_decode_core input.vertices [input.normals, input.tangents, input.textures]
          ({ semantic := "POSITION", format := "VEC3", normalized := false, offset := 0, stride := 40 })
          [{ semantic := "NORMAL", format := "VEC3", normalized := false, offset := 12, stride := 40 },
           { semantic := "TANGENT", format := "VEC3", normalized := false, offset := 24, stride := 40 },
           { semantic := "TEXTURE", format := "U16VEC2", normalized := true, offset := 36, stride := 40 }]
          (g0 :: rest) (get_format input.vertices.length)
          rfl (by decide) (by decide) rfl hv
          (by
            intro s hs
            simp only [List.mem_cons, List.not_mem_nil, or_false] at hs
            rcases hs with rfl | rfl | rfl
            · rcases hlen_n with h | h
              · exact absurd h hn
              · exact h
            · rcases hlen_t with h | h
              · exact absurd h ht
              · exact h
            · rcases hlen_x with h | h
              · exact absurd h hx
              · exact h
            )
          (by
            intro t ht'
            exact goodTuple_vec3 _ rfl t (hverts t ht').1 (hverts t ht').2)
          (by
            intro q hq
            simp only [List.zip_cons_cons, List.zip_nil_left, List.mem_cons,
              List.not_mem_nil, or_false] at hq
            rcases hq with rfl | rfl | rfl
            · intro t ht'
              exact goodTuple_vec3 _ rfl t (hnorms t ht').1 (hnorms t ht').2
            · intro t ht'
              exact goodTuple_vec3 _ rfl t (htans t ht').1 (htans t ht').2
            · intro t ht'
              exact goodTuple_tex _ rfl t (htexs t ht').1 (htexs t ht').2
            )
          (by decide)
          (hidx ▸ hidx3)
          (by
            intro g hg v hv'
            have := (hidx ▸ hidxv) g hg v hv'
            exact inRange_of_index_bound input.vertices.length v this.1 this.2)
        simp only [List.zip_cons_cons, List.zip_nil_left, List.map_cons,
          List.map_nil] at hcore
        rw [hexp]
        simp only [vertexSection, indexSection, hattrs, hdata, hidx]
        exact hcore
      · -- present: normals, tangents, textures, colors
        have hattrs : set_up_attributes input =
            { semantic := "POSITION", format := "VEC3", normalized := false, offset := 0, stride := 44 } ::
            [{ semantic := "NORMAL", format := "VEC3", normalized := false, offset := 12, stride := 44 },
           { semantic := "TANGENT", format := "VEC3", normalized := false, offset := 24, stride := 44 },
           { semantic := "TEXTURE", format := "U16VEC2", normalized := true, offset := 36, stride := 44 },
           { semantic := "COLOR", format := "U8VEC4", normalized := true, offset := 40, stride := 44 }] := by
          simp only [set_up_attributes, hn, ht, hx, hc]
          decide
        have hdata : presentData input = input.vertices :: [input.normals, input.tangents, input.textures, input.colors] := by
          simp [presentData, hv, hn, ht, hx, hc]
        have hexp : expectedPointData input = [("NORMAL", input.normals), ("TANGENT", input.tangents), ("TEXTURE", input.textures), ("COLOR", input.colors)] := by
          simp [expectedPointData, hn, ht, hx, hc]
        have hcore := export_decode_core input.vertices [input.normals, input.tangents, input.textures, input.colors]
          ({ semantic := "POSITION", format := "VEC3", normalized := false, offset := 0, stride := 44 })
          [{ semantic := "NORMAL", format := "VEC3", normalized := false, offset := 12, stride := 44 },
           { semantic := "TANGENT", format := "VEC3", normalized := false, offset := 24, stride := 44 },
           { semantic := "TEXTURE", format := "U16VEC2", normalized := true, offset := 36, stride := 44 },
           { semantic := "COLOR", format := "U8VEC4", normalized := true, offset := 40, stride := 44 }]
          (g0 :: rest) (get_format input.vertices.length)
          rfl (by decide) (by decide) rfl hv
          (by
            intro s hs
            simp only [List.mem_cons, List.not_mem_nil, or_false] at hs
            rcases hs with rfl | rfl | rfl | rfl
            · rcases hlen_n with h | h
              · exact absurd h hn
              · exact h
            · rcases hlen_t with h | h
              · exact absurd h ht
              · exact h
            · rcases hlen_x with h | h
              · exact absurd h hx
              · exact h
            · rcases hlen_c with h | h
              · exact absurd h hc
              · exact h
            )
          (by
            intro t ht'
            exact goodTuple_vec3 _ rfl t (hverts t ht').1 (hverts t ht').2)
          (by
            intro q hq
            simp only [List.zip_cons_cons, List.zip_nil_left, List.mem_cons,
              List.not_mem_nil, or_false] at hq
            rcases hq with rfl | rfl | rfl | rfl
            · intro t ht'
              exact goodTuple_vec3 _ rfl t (hnorms t ht').1 (hnorms t ht').2
            · intro t ht'
              exact goodTuple_vec3 _ rfl t (htans t ht').1 (htans t ht').2
            · intro t ht'
              exact goodTuple_tex _ rfl t (htexs t ht').1 (htexs t ht').2
            · intro t ht'
              exact goodTuple_col _ rfl t (hcols t ht').1 (hcols t ht').2
            )
          (by decide)
          (hidx ▸ hidx3)
          (by
            intro g hg v hv'
            have := (hidx ▸ hidxv) g hg v hv'
            exact inRange_of_index_bound input.vertices.length v this.1 this.2)
        simp only [List.zip_cons_cons, List.zip_nil_left, List.map_cons,
          List.map_nil] at hcore
        rw [hexp]
        simp only [vertexSection, indexSection, hattrs, hdata, hidx]
        exact hcore

/-- C1 counterexample: for index groups of size 2 (a line segment) the round
trip fails as stated: the decoder regroups the flat index scalars into
hardcoded triples, so the encoded index list `[[0, 1]]` decodes back as no
index group at all. -/
theorem roundtrip_counterexample :
    build_geometry_patch segmentInput = some segmentPatch ∧
    segmentInput.indices = [[0, 1]] ∧
    export_mesh_decode segmentPatch.buffer segmentPatch.indices
        segmentPatch.attributes
      = some (segmentInput.vertices, [], []) ∧
    ([] : List (List Int)) ≠ segmentInput.indices := by
  decide

set_option maxRecDepth 4096 in
/-- Witness for the amended C1 round trip: a patch with every optional
stream present and two triangles decodes back to its input streams. -/
theorem encode_decode_roundtrip_witness :
    export_mesh_decode fullPatch.buffer fullPatch.indices fullPatch.attributes
      = some (fullInput.vertices, fullInput.indices, expectedPointData fullInput) :=
  encode_decode_roundtrip fullInput fullPatch (by decide) (by decide) (by decide)
    (by decide) (by decide) (by decide) (by decide) (by decide) (by decide)
    (by decide) (by decide) (by decide)

end GeometryCreation
